import Mathlib

/-! # di-plus: a dependency-injection container

A shallow embedding of the resolution engine of the Go package `di_plus`
(`service_type.go`, `service_descriptor.go`, `service_provider.go`,
`service_scope.go`) together with theorems about the lifetime policies
(Singleton, Scoped, Transient).

Modelling conventions

* A Go `interface{}` value is a `Value`: the nil interface, or a dynamic type
  with a payload (for a pointer, the address of the object it points to).
* A `reflect.Type` is a `GoType`.
* A factory `func(IServiceProvider) (interface{}, error)` is a `Prog`: a tree of
  the effects a factory can have on the container and its environment.  The
  container is reachable only through the two methods of `IServiceProvider`.
* The Go maps `map[string]*ServiceDescriptor` are functions from names to
  optional descriptors.  A factory cannot insert into a map, so the descriptor
  pointer `d` read before `d.factory(s)` is still the entry of the same map
  under the same name when `d.instance = inst` runs; that write is an update of
  the entry under the name.
* Resolution is recursive without bound (a cyclic registration never returns),
  so the resolvers take a fuel argument and return `none` when it runs out.
  More fuel never changes a result (`fuel_succ_all`).
* A panic is an outcome of its own (`Res.panic`); nothing in the package
  recovers from one.
-/

namespace DiPlus

/-! ## Types and values -/

/-- A Go type as seen through `reflect.Type`: a named type (a struct, a basic
type or, when `isInterface` is set, an interface) or a pointer to a type. -/
inductive GoType where
  | named (name : String) (isInterface : Bool)
  | ptr (elem : GoType)
  deriving DecidableEq, Repr

/-- The method `reflect.Type.Name`: the name of a named type, empty for a
pointer type. -/
def GoType.Name : GoType → String
  | .named n _ => n
  | .ptr _ => ""

/-- The test `t.Kind() == reflect.Pointer` on a type. -/
def GoType.isPointer : GoType → Bool
  | .ptr _ => true
  | .named _ _ => false

/-- A Go `interface{}` value: the nil interface, or a dynamic type together with
a payload.  The payload of a pointer is the address it holds (0 for a nil
pointer); the payload of any other value stands for its contents (0 for the
zero value). -/
inductive Value where
  | nil
  | mk (ty : GoType) (data : Nat)
  deriving DecidableEq, Repr

/-- The test `reflect.ValueOf(v).Kind() == reflect.Pointer`; the nil interface
has kind `Invalid`. -/
def Value.isPointer : Value → Bool
  | .nil => false
  | .mk ty _ => ty.isPointer

/-- A Go `error` value, known by its text. -/
structure GoError where
  text : String
  deriving DecidableEq, Repr

/-- The type `ServiceType = uint8`. -/
abbrev ServiceType := Nat

/-- The struct `ServiceTypeStruct`. -/
structure ServiceTypeStruct where
  Singleton : ServiceType
  Scoped : ServiceType
  Transient : ServiceType

/-- The variable `ServiceTypeEnum`. -/
def ServiceTypeEnum : ServiceTypeStruct :=
  { Singleton := 0, Scoped := 1, Transient := 2 }

/-! ## Factories -/

/-- The body of a factory `func(s IServiceProvider) (interface{}, error)`. -/
inductive Prog where
  /-- The statement `return inst, err`. -/
  | ret (inst : Value) (err : Option GoError)
  /-- A Go panic carrying a message. -/
  | panic (msg : String)
  /-- The call `s.GetServiceOr(name)` on the resolver the factory was given. -/
  | GetServiceOr (name : String) (k : Value → Option GoError → Prog)
  /-- The expression `&T{...}`: a fresh object of type `ty` holding `fields`. -/
  | new (ty : GoType) (fields : List Value) (k : Value → Prog)
  /-- The call `getIncrement()` on the global counter of `service_test.go`. -/
  | getIncrement (k : Nat → Prog)

/-- The call `s.GetService(name)` inside a factory: `GetServiceOr`, then a panic
with the text of the error if there is one. -/
def Prog.GetService (name : String) (k : Value → Prog) : Prog :=
  .GetServiceOr name fun result err =>
    match err with
    | some e => .panic e.text
    | none => k result

/-! ## The container state -/

/-- The struct `ServiceDescriptor`.  The field `inst` is the Go field
`instance`; a nil `factory` is `none`. -/
structure ServiceDescriptor where
  inst_type : GoType
  serv_type : ServiceType
  inst : Value := .nil
  factory : Option Prog := none

/-- A Go `map[string]*ServiceDescriptor`. -/
abbrev ServiceMap := String → Option ServiceDescriptor

/-- Who resolves: the root provider or the scope with a given handle. -/
inductive Resolver where
  | root
  | scope (id : Nat)
  deriving DecidableEq, Repr

/-- Everything a resolution can read or change: the provider's map, the own
map of every scope created from it, the objects allocated by factories, the
global counter of `getIncrement`, and the record of the factory calls that
have come back so far (which identity, with which resolver), in the order of
their return.  The record is not part of the Go state: it is kept to say which
factories a resolution has called. -/
structure World where
  services : ServiceMap
  scopes : Nat → ServiceMap
  nextScope : Nat
  heap : List (GoType × List Value)
  counter : Nat
  log : List (String × Resolver)

/-- The outcome of a call that came back: a normal return of an
`(interface{}, error)` pair, or a panic. -/
inductive Res where
  | ok (inst : Value) (err : Option GoError)
  | panic (msg : String)
  deriving DecidableEq, Repr

/-- The assignment `d.instance = inst` for the descriptor `d` a map holds under
`name`. -/
def ServiceMap.setInst (m : ServiceMap) (name : String) (inst : Value) : ServiceMap :=
  fun key => if key = name then (m key).map fun d => { d with inst := inst } else m key

/-- The assignment `d.instance = inst` on a descriptor of the provider's map. -/
def World.setProviderInst (w : World) (name : String) (inst : Value) : World :=
  { w with services := w.services.setInst name inst }

/-- The assignment `d.instance = inst` on a descriptor of the own map of
scope `id`. -/
def World.setScopeInst (w : World) (id : Nat) (name : String) (inst : Value) : World :=
  { w with scopes := fun j => if j = id then (w.scopes j).setInst name inst else w.scopes j }

/-- The assignment `d.instance = inst` in `ServiceScope.GetServiceOr`, on the
descriptor the scope found: one of its own map, or one of the provider's. -/
def World.setFoundInst (w : World) (id : Nat) (own : Bool) (name : String) (inst : Value) : World :=
  if own then w.setScopeInst id name inst else w.setProviderInst name inst

/-- The record of a call `d.factory(s)` that came back: the identity whose
factory ran and the resolver `s` it was given. -/
def World.invoked (w : World) (name : String) (s : Resolver) : World :=
  { w with log := w.log ++ [(name, s)] }

/-- The call `d.factory(s)` of the descriptor registered under `name`, given
what the body of the factory does: the outcome of the body, with the call
entered in the record. -/
def called (name : String) (s : Resolver) (body : Option (Res × World)) : Option (Res × World) :=
  body.map fun out => (out.1, out.2.invoked name s)

/-- The text of the runtime error raised by a call through a nil func or a
method call on a nil interface. -/
def nilDereference : String :=
  "runtime error: invalid memory address or nil pointer dereference"

/-- The lookup at the head of `ServiceScope.GetServiceOr`: the scope's own map
first, then the map of its provider.  The flag tells whether the descriptor is
the scope's own. -/
def ServiceScope.find (w : World) (id : Nat) (service_name : String) :
    Option (ServiceDescriptor × Bool) :=
  match w.scopes id service_name with
  | some d => some (d, true)
  | none =>
    match w.services service_name with
    | some d => some (d, false)
    | none => none

/-! ## Resolution -/

mutual

/-- The method `ServiceProvider.GetServiceOr`. -/
def ServiceProvider.GetServiceOr : Nat → String → World → Option (Res × World)
  | 0, _, _ => none
  | fuel + 1, service_name, w =>
    match w.services service_name with
    | none => some (.ok .nil (some ⟨"the service '" ++ service_name ++ "' not found"⟩), w)
    | some d =>
      if d.serv_type = ServiceTypeEnum.Singleton then
        if d.inst = .nil then
          match d.factory with
          | none => some (.panic nilDereference, w)
          | some f =>
            match called service_name .root (Prog.run fuel .root f w) with
            | none => none
            | some (.panic msg, w1) => some (.panic msg, w1)
            | some (.ok _ (some err), w1) => some (.ok .nil (some err), w1)
            | some (.ok inst none, w1) =>
              if inst.isPointer then
                some (.ok inst none, w1.setProviderInst service_name inst)
              else
                some (.ok .nil (some ⟨"the singleton service '" ++ service_name ++
                  "' must be a pointer (the factory must return &" ++ service_name ++ "\x7b\x7d)"⟩), w1)
        else some (.ok d.inst none, w)
      else if d.serv_type = ServiceTypeEnum.Scoped then
        some (.ok .nil (some ⟨"cannot get scoped service '" ++ service_name ++ "' from root"⟩), w)
      else
        match d.factory with
        | none => some (.panic nilDereference, w)
        | some f => called service_name .root (Prog.run fuel .root f w)

/-- The method `ServiceScope.GetServiceOr` of the scope with handle `id`. -/
def ServiceScope.GetServiceOr : Nat → Nat → String → World → Option (Res × World)
  | 0, _, _, _ => none
  | fuel + 1, id, service_name, w =>
    match ServiceScope.find w id service_name with
    | none => some (.ok .nil (some ⟨"the service '" ++ service_name ++ "' not found"⟩), w)
    | some (d, own) =>
      if d.serv_type = ServiceTypeEnum.Singleton then
        ServiceProvider.GetServiceOr fuel service_name w
      else if d.serv_type = ServiceTypeEnum.Scoped then
        if d.inst = .nil then
          match d.factory with
          | none => some (.panic nilDereference, w)
          | some f =>
            match called service_name (.scope id) (Prog.run fuel (.scope id) f w) with
            | none => none
            | some (.panic msg, w1) => some (.panic msg, w1)
            | some (.ok _ (some err), w1) => some (.ok .nil (some err), w1)
            | some (.ok inst none, w1) =>
              if inst.isPointer then
                some (.ok inst none, w1.setFoundInst id own service_name inst)
              else
                some (.ok .nil (some ⟨"the scoped service '" ++ service_name ++
                  "' must be a pointer (the factory must return &" ++ service_name ++ "\x7b\x7d)"⟩), w1)
        else some (.ok d.inst none, w)
      else
        match d.factory with
        | none => some (.panic nilDereference, w)
        | some f => called service_name (.scope id) (Prog.run fuel (.scope id) f w)

/-- The execution of a factory body with the resolver `s` it was given. -/
def Prog.run : Nat → Resolver → Prog → World → Option (Res × World)
  | 0, _, _, _ => none
  | _ + 1, _, .ret inst err, w => some (.ok inst err, w)
  | _ + 1, _, .panic msg, w => some (.panic msg, w)
  | fuel + 1, s, .GetServiceOr name k, w =>
    match (match s with
           | .root => ServiceProvider.GetServiceOr fuel name w
           | .scope id => ServiceScope.GetServiceOr fuel id name w) with
    | none => none
    | some (.panic msg, w1) => some (.panic msg, w1)
    | some (.ok result err, w1) => Prog.run fuel s (k result err) w1
  | fuel + 1, s, .new ty fields k, w =>
    Prog.run fuel s (k (.mk (.ptr ty) (w.heap.length + 1)))
      { w with heap := w.heap ++ [(ty, fields)] }
  | fuel + 1, s, .getIncrement k, w =>
    Prog.run fuel s (k (w.counter + 1)) { w with counter := w.counter + 1 }

end

/-- The call `s.GetServiceOr(name)` through the interface `IServiceProvider`,
which the provider and every scope implement. -/
def IServiceProvider.GetServiceOr (fuel : Nat) (s : Resolver) (name : String) (w : World) :
    Option (Res × World) :=
  match s with
  | .root => ServiceProvider.GetServiceOr fuel name w
  | .scope id => ServiceScope.GetServiceOr fuel id name w

/-- The methods `ServiceProvider.GetService` and `ServiceScope.GetService`,
through the interface: `GetServiceOr`, then a panic with the text of the error
if there is one. -/
def IServiceProvider.GetService (fuel : Nat) (s : Resolver) (name : String) (w : World) :
    Option (Res × World) :=
  match IServiceProvider.GetServiceOr fuel s name w with
  | none => none
  | some (.panic msg, w1) => some (.panic msg, w1)
  | some (.ok _ (some err), w1) => some (.panic err.text, w1)
  | some (.ok result none, w1) => some (.ok result none, w1)

/-- The calls `s.GetServiceOr(name)` for the names of a list, one after the
other: the results in the order of the calls and the state after the last one.
A panic ends the sequence. -/
def resolveAll (fuel : Nat) (s : Resolver) : List String → World → Option (List Res × World)
  | [], w => some ([], w)
  | name :: rest, w =>
    match IServiceProvider.GetServiceOr fuel s name w with
    | none => none
    | some (.panic msg, w1) => some ([.panic msg], w1)
    | some (.ok result err, w1) =>
      (resolveAll fuel s rest w1).map fun out => (.ok result err :: out.1, out.2)

/-- The descriptor under which the resolver `s` resolves a name: the entry of
the provider's map for the root, what `ServiceScope.find` finds for a scope. -/
def IServiceProvider.find (w : World) (s : Resolver) (name : String) : Option ServiceDescriptor :=
  match s with
  | .root => w.services name
  | .scope id => (ServiceScope.find w id name).map fun p => p.1

/-- The call `d.factory(s)` of the descriptor registered under `name`, with
body `f`, `N` times in a row: the results in the order of the calls and the
state after the last one.  A panic ends the sequence. -/
def callTimes (fuel : Nat) (s : Resolver) (name : String) (f : Prog) :
    Nat → World → Option (List Res × World)
  | 0, w => some ([], w)
  | n + 1, w =>
    match called name s (Prog.run fuel s f w) with
    | none => none
    | some (.panic msg, w1) => some ([.panic msg], w1)
    | some (.ok inst err, w1) =>
      (callTimes fuel s name f n w1).map fun out => (.ok inst err :: out.1, out.2)

/-! ## Registration and scopes -/

/-- The function `NewServiceProvider`: a provider with an empty map, in an
environment where nothing has happened yet. -/
def NewServiceProvider : World :=
  { services := fun _ => none, scopes := fun _ _ => none, nextScope := 0,
    heap := [], counter := 0, log := [] }

/-- The method `ServiceProvider.Register`. -/
def ServiceProvider.Register (inst_type : GoType) (serv_type : ServiceType)
    (factory : Option Prog) (w : World) : World :=
  { w with services := fun key =>
      if key = inst_type.Name then
        some { inst_type := inst_type, serv_type := serv_type, factory := factory }
      else w.services key }

/-- The method `ServiceProvider.RegisterInst`: the message of its panic, if it
panics, and the state after the call. -/
def ServiceProvider.RegisterInst (inst_type : GoType) (inst : Value) (w : World) :
    Option String × World :=
  if inst.isPointer = false then
    (some ("the given instance '" ++ inst_type.Name ++
      "' must be a pointer (the instance must be &" ++ inst_type.Name ++ "\x7b\x7d)"), w)
  else
    (none,
      { w with
        services := fun key =>
          if key = inst_type.Name then
            some { inst_type := inst_type, serv_type := ServiceTypeEnum.Singleton, inst := inst }
          else w.services key })

/-- The method `ServiceProvider.CreateScope`: the handle of the new scope and
the state in which it exists. -/
def ServiceProvider.CreateScope (w : World) : Nat × World :=
  (w.nextScope,
    { w with
      nextScope := w.nextScope + 1
      scopes := fun id =>
        if id = w.nextScope then
          fun key =>
            match w.services key with
            | some val =>
              if val.serv_type = ServiceTypeEnum.Scoped then
                some { inst_type := val.inst_type, serv_type := val.serv_type,
                       factory := val.factory }
              else none
            | none => none
        else w.scopes id })

/-! ## The generic accessors -/

/-- The function `GetTypeOf[T]`. -/
def GetTypeOf (T : GoType) : GoType :=
  match T with
  | .ptr elem => elem
  | t => t

/-- The declaration `var v T`, as an `interface{}` value: the nil interface
for an interface type, the zero value of the type otherwise. -/
def zeroValue (T : GoType) : Value :=
  match T with
  | .named _ true => .nil
  | t => .mk t 0

/-- The type assertion `result.(T)`; `none` is its panic.  The relation
`implements ty I` says that the type `ty` has the methods of the interface
type `I`. -/
def typeAssertion (implements : GoType → GoType → Bool) (T : GoType) (result : Value) :
    Option Value :=
  match result with
  | .nil => none
  | .mk ty _ =>
    match T with
    | .named _ true => if implements ty T then some result else none
    | t => if ty = t then some result else none

/-- The text of the runtime error raised by a type assertion that fails. -/
def interfaceConversion : String := "interface conversion"

/-- What the generic `GetServiceOr[T]` makes of the pair that
`s.GetServiceOr(inst_type.Name())` returned. -/
def typedResult (implements : GoType → GoType → Bool) (T : GoType) (result : Value)
    (err : Option GoError) : Res :=
  match err with
  | some e => .ok (zeroValue T) (some e)
  | none =>
    match result with
    | .nil => .panic nilDereference
    | .mk ty _ =>
      if ty.isPointer ∧ ¬ T.isPointer then
        .ok (zeroValue T) (some ⟨"cannot get an instance of the service '" ++
          (GetTypeOf T).Name ++ "', use pointer instead"⟩)
      else
        match typeAssertion implements T result with
        | some v => .ok v none
        | none => .panic interfaceConversion

/-- The generic function `GetServiceOr[T]`. -/
def GetServiceOr (implements : GoType → GoType → Bool) (T : GoType) (fuel : Nat) (s : Resolver)
    (w : World) : Option (Res × World) :=
  match IServiceProvider.GetServiceOr fuel s (GetTypeOf T).Name w with
  | none => none
  | some (.panic msg, w1) => some (.panic msg, w1)
  | some (.ok result err, w1) => some (typedResult implements T result err, w1)

/-- The generic function `GetService[T]`. -/
def GetService (implements : GoType → GoType → Bool) (T : GoType) (fuel : Nat) (s : Resolver)
    (w : World) : Option (Res × World) :=
  match GetServiceOr implements T fuel s w with
  | none => none
  | some (.panic msg, w1) => some (.panic msg, w1)
  | some (.ok _ (some err), w1) => some (.panic err.text, w1)
  | some (.ok result none, w1) => some (.ok result none, w1)

/-- The generic function `Register[T]`. -/
def Register (T : GoType) (serv_type : ServiceType) (factory : Option Prog) (w : World) : World :=
  ServiceProvider.Register (GetTypeOf T) serv_type factory w

/-- The generic function `RegisterInst[T]`. -/
def RegisterInst (T : GoType) (inst : Value) (w : World) : Option String × World :=
  ServiceProvider.RegisterInst (GetTypeOf T) inst w

/-- The call `GetServiceOr[T](s)` inside a factory. -/
def Prog.GetServiceOrT (implements : GoType → GoType → Bool) (T : GoType)
    (k : Value → Option GoError → Prog) : Prog :=
  .GetServiceOr (GetTypeOf T).Name fun result err =>
    match typedResult implements T result err with
    | .panic msg => .panic msg
    | .ok v e => k v e

/-- The call `GetService[T](s)` inside a factory. -/
def Prog.GetServiceT (implements : GoType → GoType → Bool) (T : GoType) (k : Value → Prog) : Prog :=
  Prog.GetServiceOrT implements T fun v err =>
    match err with
    | some e => .panic e.text
    | none => k v

/-- The factory `return &B{Obj: GetService[*A](s)}, nil` of `Test_Injection`:
it resolves `A` through the resolver it is given and stores it in a new `B`. -/
def newHolding (implements : GoType → GoType → Bool) (A B : GoType) : Prog :=
  Prog.GetServiceT implements (.ptr A) fun a => .new B [a] fun p => .ret p none

/-- The object a pointer points to: its type and its fields. -/
def World.deref (w : World) (v : Value) : Option (GoType × List Value) :=
  match v with
  | .mk (.ptr _) (addr + 1) => w.heap[addr]?
  | _ => none

/-! ## What a resolution leaves alone -/

/-- The registration held by a descriptor: its fields other than the
memoized instance. -/
def ServiceDescriptor.registration (d : ServiceDescriptor) : GoType × ServiceType × Option Prog :=
  (d.inst_type, d.serv_type, d.factory)

/-- The registrations of a map, name by name. -/
def ServiceMap.registrations (m : ServiceMap) (name : String) :
    Option (GoType × ServiceType × Option Prog) :=
  (m name).map ServiceDescriptor.registration

/-- The state `w1` comes after `w` with the same registrations everywhere: only
memoized instances, the heap, the counter and the record of invocations have
moved, and the last three only forward. -/
structure World.Frame (w w1 : World) : Prop where
  services : w1.services.registrations = w.services.registrations
  scopes : ∀ id, (w1.scopes id).registrations = (w.scopes id).registrations
  nextScope : w1.nextScope = w.nextScope
  heap : w.heap <+: w1.heap
  counter : w.counter ≤ w1.counter
  log : w.log <+: w1.log

/-- The factory `f` never returns a pointer: whenever it returns without an
error, the instance is a plain value (or nil). -/
def Prog.ReturnsNoPointer (f : Prog) : Prop :=
  ∀ fuel s w inst w1, Prog.run fuel s f w = some (.ok inst none, w1) → inst.isPointer = false

/-- The map a descriptor lives in: the provider's map for the root, the own map
of a scope for that scope. -/
def World.mapOf (w : World) : Resolver → ServiceMap
  | .root => w.services
  | .scope id => w.scopes id

/-- The map `loc` holds under `X` a descriptor with the factory `f` and no
memoized instance. -/
def World.Unbuilt (w : World) (loc : Resolver) (X : String) (f : Prog) : Prop :=
  ∃ d, w.mapOf loc X = some d ∧ d.factory = some f ∧ d.inst = .nil

/-- The lifetime whose instances a resolver constructs and memoizes itself:
Singleton for the provider, Scoped for a scope. -/
def Resolver.memoizes : Resolver → ServiceType
  | .root => ServiceTypeEnum.Singleton
  | .scope _ => ServiceTypeEnum.Scoped

/-- The state `w1` is reached from `w` by calls of `GetServiceOr`, on the
provider or on scopes, and by calls of `CreateScope`, with no registration in
between. -/
inductive World.Later : World → World → Prop
  | refl (w : World) : World.Later w w
  | resolve {w w1 w2 : World} (fuel : Nat) (s : Resolver) (name : String) (r : Res) :
      World.Later w w1 → IServiceProvider.GetServiceOr fuel s name w1 = some (r, w2) →
      World.Later w w2
  | createScope {w w1 : World} :
      World.Later w w1 → World.Later w (ServiceProvider.CreateScope w1).2

/-- From `w` to `w1` the record of factory calls has grown by `evs`, and the
descriptors of every identity without an entry in `evs`, in the provider's map
and in the own map of every scope, are the same in `w1` as in `w`. -/
def World.Grown (w w1 : World) (evs : List (String × Resolver)) : Prop :=
  w1.log = w.log ++ evs ∧
    ∀ X, (∀ r, (X, r) ∉ evs) → w1.services X = w.services X ∧ ∀ id, w1.scopes id X = w.scopes id X

/-! ## Registries of `service_test.go` -/

/-- The type `MyService` of the tests. -/
def tMyService : GoType := .named "MyService" false

/-- The type `MyService2` of the tests. -/
def tMyService2 : GoType := .named "MyService2" false

/-- The type `int`. -/
def tInt : GoType := .named "int" false

/-- The factory `return &MyService{Num: getIncrement()}, nil`. -/
def newMyService : Prog :=
  .getIncrement fun n => .new tMyService [.mk tInt n] fun p => .ret p none

/-- The payload of a value: the address a pointer holds. -/
def Value.data : Value → Nat
  | .nil => 0
  | .mk _ data => data

/-- The factory `return MyService2{Obj: GetService[*MyService](s)}, nil` of
`Test_Error`: a value, not a pointer.  The payload of the value is the address
held in `Obj`. -/
def valueMyService2 : Prog :=
  Prog.GetServiceT (fun _ _ => false) (.ptr tMyService) fun a => .ret (.mk tMyService2 a.data) none

/-- The registry of `Test_Error`: `MyService` and `MyService2`, both Scoped. -/
def errorWorld : World :=
  ServiceProvider.Register tMyService2 ServiceTypeEnum.Scoped (some valueMyService2)
    (ServiceProvider.Register tMyService ServiceTypeEnum.Scoped (some newMyService)
      NewServiceProvider)

/-- The registry of `Test_Error`, after `scope := services.CreateScope()`; the
scope has handle 0. -/
def errorScopeWorld : World :=
  (ServiceProvider.CreateScope errorWorld).2

/-- The registry of `Test_Singleton`: `MyService` registered as Singleton. -/
def singletonWorld : World :=
  ServiceProvider.Register tMyService ServiceTypeEnum.Singleton (some newMyService)
    NewServiceProvider

/-- The registry of `Test_Scoped` (`MyService` registered as Scoped), after
`scope := services.CreateScope()`; the scope has handle 0. -/
def scopedWorld : World :=
  (ServiceProvider.CreateScope
    (ServiceProvider.Register tMyService ServiceTypeEnum.Scoped (some newMyService)
      NewServiceProvider)).2

/-- The factory `return MyService{Num: getIncrement()}, nil` of
`Test_Transient`: a value, not a pointer. -/
def valueMyService : Prog :=
  .getIncrement fun n => .ret (.mk tMyService n) none

/-- The registry of `Test_Transient`, after `scope := services.CreateScope()`;
the scope has handle 0. -/
def transientWorld : World :=
  (ServiceProvider.CreateScope
    (ServiceProvider.Register tMyService ServiceTypeEnum.Transient (some valueMyService)
      NewServiceProvider)).2

/-- The registry of `Test_Singleton`, after `scope := services.CreateScope()`;
the scope has handle 0. -/
def singletonScopeWorld : World :=
  (ServiceProvider.CreateScope singletonWorld).2

/-- A provider from which two scopes (handles 0 and 1) are created before
`MyService` is registered as Scoped. -/
def lateWorld : World :=
  ServiceProvider.Register tMyService ServiceTypeEnum.Scoped (some newMyService)
    (ServiceProvider.CreateScope (ServiceProvider.CreateScope NewServiceProvider).2).2

/-- An interface relation in which no type implements any interface. -/
def implementsNothing : GoType → GoType → Bool := fun _ _ => false

/-- The registry of `Test_Injection`: `MyService` and `MyService2`, both
Singleton, the second holding the first; after `scope := services.CreateScope()`,
the scope has handle 0. -/
def injectionWorld : World :=
  (ServiceProvider.CreateScope
    (ServiceProvider.Register tMyService2 ServiceTypeEnum.Singleton
      (some (newHolding implementsNothing tMyService tMyService2))
      (ServiceProvider.Register tMyService ServiceTypeEnum.Singleton (some newMyService)
        NewServiceProvider))).2

/-- The interface type `IMyService` of the tests. -/
def tIMyService : GoType := .named "IMyService" true

/-- The method sets of the tests: `*MyService2` has the method `get` of
`IMyService`, and nothing else implements an interface. -/
def implementsTests : GoType → GoType → Bool :=
  fun ty I => decide (ty = .ptr tMyService2 ∧ I = tIMyService)

/-- The factory of `Test_Interfaces`:
`result = &MyService2{Obj: &MyService{Num: 111}, Num2: 222}; return result, nil`. -/
def newIMyService : Prog :=
  .new tMyService [.mk tInt 111] fun obj =>
    .new tMyService2 [obj, .mk tInt 222] fun result => .ret result none

/-- The registry of `Test_Interfaces`: `IMyService` registered as Singleton. -/
def interfacesWorld : World :=
  ServiceProvider.Register (GetTypeOf tIMyService) ServiceTypeEnum.Singleton (some newIMyService)
    NewServiceProvider

/-- The text that `Test_Error` expects from `GetServiceOr[MyService](scope)`. -/
def expectedValueOfService : String :=
  "cannot get a value of the service 'MyService', use pointer instead " ++
    "(eg. use `GetServiceOr[*MyService](s)` instead of `GetServiceOr[MyService](s)`)"

/-- The text that `Test_Error` expects from `GetServiceOr[*MyService2](scope)`. -/
def expectedMustBePointer : String :=
  "the scoped service 'MyService2' must be a pointer " ++
    "(the factory must return &MyService2\x7b\x7d or interface)"

/-- The state of `Test_Error` after `GetServiceOr[MyService](scope)`:
`MyService` is constructed in the scope. -/
def errorScopeWorld1 : World :=
  (({ errorScopeWorld with counter := 1, heap := [(tMyService, [.mk tInt 1])] } :
    World).invoked "MyService" (.scope 0)).setScopeInst 0 "MyService" (.mk (.ptr tMyService) 1)

/-- The type `MyService3` of the tests. -/
def tMyService3 : GoType := .named "MyService3" false

/-- The registry of `Test_References`: `MyService` Singleton, `MyService2`
Scoped and `MyService3` Transient, the last two holding a `MyService`. -/
def referencesWorld : World :=
  ServiceProvider.Register tMyService3 ServiceTypeEnum.Transient
    (some (newHolding implementsNothing tMyService tMyService3))
    (ServiceProvider.Register tMyService2 ServiceTypeEnum.Scoped
      (some (newHolding implementsNothing tMyService tMyService2))
      (ServiceProvider.Register tMyService ServiceTypeEnum.Singleton (some newMyService)
        NewServiceProvider))

/-- A provider with the instance at address 1 registered for `MyService` by
`RegisterInst`, after `scope := services.CreateScope()`; the scope has
handle 0. -/
def instanceWorld : World :=
  (ServiceProvider.CreateScope
    (ServiceProvider.RegisterInst tMyService (.mk (.ptr tMyService) 1) NewServiceProvider).2).2

/-- A factory that resolves `MyService` and then fails:
`GetService[*MyService](s); return nil, errors.New("no MyService2")`. -/
def failingMyService2 : Prog :=
  Prog.GetServiceT implementsNothing (.ptr tMyService) fun _ =>
    .ret .nil (some ⟨"no MyService2"⟩)

/-- A registry with `MyService` and `MyService2`, both Singleton, where the
factory of the second resolves the first and fails; a scope (handle 0) is
created from it. -/
def failureWorld : World :=
  (ServiceProvider.CreateScope
    (ServiceProvider.Register tMyService2 ServiceTypeEnum.Singleton (some failingMyService2)
      (ServiceProvider.Register tMyService ServiceTypeEnum.Singleton (some newMyService)
        NewServiceProvider))).2

/-- The state of `failureWorld` after the factory of `MyService2` has run:
`MyService` is constructed and memoized. -/
def failureWorld1 : World :=
  (({ failureWorld with counter := 1, heap := [(tMyService, [.mk tInt 1])] } :
    World).invoked "MyService" .root).setProviderInst "MyService" (.mk (.ptr tMyService) 1)

/-- A registry with `MyService` registered as Transient with the factory
`return nil, nil`. -/
def nilWorld : World :=
  ServiceProvider.Register tMyService ServiceTypeEnum.Transient (some (.ret .nil none))
    NewServiceProvider

/-- A factory that resolves `MyService` with `GetServiceOr`, returns the
error if there is one, and otherwise a new `MyService2` that holds it. -/
def propagatingMyService2 : Prog :=
  .GetServiceOr "MyService" fun a err =>
    match err with
    | some e => .ret .nil (some e)
    | none => .new tMyService2 [a] fun p => .ret p none

/-- A registry with the Scoped `MyService` and the Singleton `MyService2`
whose factory resolves it; a scope (handle 0) is created and `MyService` is
constructed in it. -/
def captiveWorld : World :=
  (({ (ServiceProvider.CreateScope
        (ServiceProvider.Register tMyService2 ServiceTypeEnum.Singleton
          (some propagatingMyService2)
          (ServiceProvider.Register tMyService ServiceTypeEnum.Scoped (some newMyService)
            NewServiceProvider))).2
      with counter := 1, heap := [(tMyService, [.mk tInt 1])] } :
    World).invoked "MyService" (.scope 0)).setScopeInst 0 "MyService" (.mk (.ptr tMyService) 1)

/-- A registry with the Scoped `MyService` and the Transient `MyService3`
whose factory is `return &MyService3{Obj: GetService[*MyService](s)}, nil`,
after `scope := services.CreateScope()`; the scope has handle 0. -/
def transientScopedWorld : World :=
  (ServiceProvider.CreateScope
    (ServiceProvider.Register tMyService3 ServiceTypeEnum.Transient
      (some (newHolding implementsNothing tMyService tMyService3))
      (ServiceProvider.Register tMyService ServiceTypeEnum.Scoped (some newMyService)
        NewServiceProvider))).2


/-- A factory that resolves `MyService` with `GetServiceOr`, drops the error,
and returns a new `MyService2` holding what it got:
`a, _ := s.GetServiceOr("MyService"); return &MyService2{Obj: a}, nil`. -/
def ignoringMyService2 : Prog :=
  .GetServiceOr "MyService" fun a _ => .new tMyService2 [a] fun p => .ret p none

/-- The registry of `captiveWorld` with the factory `f` for the Singleton
`MyService2`: `MyService` is Scoped, a scope (handle 0) is created and
`MyService` is constructed in it. -/
def captiveWorldWith (f : Prog) : World :=
  (({ (ServiceProvider.CreateScope
        (ServiceProvider.Register tMyService2 ServiceTypeEnum.Singleton (some f)
          (ServiceProvider.Register tMyService ServiceTypeEnum.Scoped (some newMyService)
            NewServiceProvider))).2
      with counter := 1, heap := [(tMyService, [.mk tInt 1])] } :
    World).invoked "MyService" (.scope 0)).setScopeInst 0 "MyService" (.mk (.ptr tMyService) 1)

/-- The factory `return s.GetServiceOr("MyService")`: whatever the resolver
returns for `MyService`. -/
def aliasingMyService2 : Prog :=
  .GetServiceOr "MyService" fun v e => .ret v e

/-- A registry with the Transient `MyService` of `Test_Transient`, whose
factory returns a value, and the Singleton `MyService2` whose factory returns
what the resolver returns for `MyService`. -/
def aliasWorld : World :=
  ServiceProvider.Register tMyService2 ServiceTypeEnum.Singleton (some aliasingMyService2)
    (ServiceProvider.Register tMyService ServiceTypeEnum.Transient (some valueMyService)
      NewServiceProvider)
/-! ## Frame lemmas -/

theorem ServiceMap.registrations_setInst (m : ServiceMap) (name : String) (inst : Value) :
    (m.setInst name inst).registrations = m.registrations := by
  funext key
  unfold ServiceMap.registrations ServiceMap.setInst
  by_cases h : key = name
  · simp only [h, if_true]
    cases m name <;> rfl
  · simp only [h, if_false]

theorem World.Frame.refl (w : World) : w.Frame w :=
  ⟨rfl, fun _ => rfl, rfl, List.prefix_refl _, le_refl _, List.prefix_refl _⟩

theorem World.Frame.trans {w w1 w2 : World} (h1 : w.Frame w1) (h2 : w1.Frame w2) : w.Frame w2 :=
  ⟨h2.services.trans h1.services, fun id => (h2.scopes id).trans (h1.scopes id),
    h2.nextScope.trans h1.nextScope, h1.heap.trans h2.heap, le_trans h1.counter h2.counter,
    h1.log.trans h2.log⟩

theorem World.frame_invoked (w : World) (name : String) (r : Resolver) :
    w.Frame (w.invoked name r) :=
  ⟨rfl, fun _ => rfl, rfl, List.prefix_refl _, le_refl _, List.prefix_append _ _⟩

theorem World.frame_setProviderInst (w : World) (name : String) (inst : Value) :
    w.Frame (w.setProviderInst name inst) :=
  ⟨ServiceMap.registrations_setInst _ _ _, fun _ => rfl, rfl, List.prefix_refl _, le_refl _,
    List.prefix_refl _⟩

theorem World.frame_setScopeInst (w : World) (id : Nat) (name : String) (inst : Value) :
    w.Frame (w.setScopeInst id name inst) := by
  refine ⟨rfl, fun j => ?_, rfl, List.prefix_refl _, le_refl _, List.prefix_refl _⟩
  unfold World.setScopeInst
  by_cases h : j = id
  · simp only [h, if_true]
    exact ServiceMap.registrations_setInst _ _ _
  · simp only [h, if_false]

theorem World.frame_setFoundInst (w : World) (id : Nat) (own : Bool) (name : String)
    (inst : Value) : w.Frame (w.setFoundInst id own name inst) := by
  unfold World.setFoundInst
  split
  · exact World.frame_setScopeInst _ _ _ _
  · exact World.frame_setProviderInst _ _ _

theorem frame_called {name : String} {s : Resolver} {w : World} {body : Option (Res × World)}
    {r : Res} {w1 : World} (h : called name s body = some (r, w1))
    (hb : ∀ r0 w0, body = some (r0, w0) → w.Frame w0) : w.Frame w1 := by
  cases body with
  | none => cases h
  | some out =>
    obtain ⟨r0, w0⟩ := out
    simp only [called, Option.map_some', Option.some.injEq, Prod.mk.injEq] at h
    obtain ⟨-, rfl⟩ := h
    exact (hb r0 w0 rfl).trans (World.frame_invoked _ _ _)

/-- Every call that comes back leaves the registrations as they were. -/
theorem frame_all (fuel : Nat) :
    (∀ name w r w1, ServiceProvider.GetServiceOr fuel name w = some (r, w1) → w.Frame w1) ∧
    (∀ id name w r w1, ServiceScope.GetServiceOr fuel id name w = some (r, w1) → w.Frame w1) ∧
    (∀ s p w r w1, Prog.run fuel s p w = some (r, w1) → w.Frame w1) := by
  induction fuel with
  | zero =>
    refine ⟨?_, ?_, ?_⟩ <;> intros <;> simp_all [ServiceProvider.GetServiceOr, ServiceScope.GetServiceOr, Prog.run]
  | succ n ih =>
    obtain ⟨ihP, ihS, ihR⟩ := ih
    refine ⟨?_, ?_, ?_⟩
    · intro name w r w1 h
      simp only [ServiceProvider.GetServiceOr] at h
      split at h
      · cases h; exact World.Frame.refl _
      · split at h
        · split at h
          · split at h
            · cases h; exact World.Frame.refl _
            · split at h
              · cases h
              · cases h
                exact frame_called (by assumption) (fun _ _ hb => ihR _ _ _ _ _ hb)
              · cases h
                exact frame_called (by assumption) (fun _ _ hb => ihR _ _ _ _ _ hb)
              · split at h
                · cases h
                  exact (frame_called (by assumption) (fun _ _ hb => ihR _ _ _ _ _ hb)).trans
                    (World.frame_setProviderInst _ _ _)
                · cases h
                  exact frame_called (by assumption) (fun _ _ hb => ihR _ _ _ _ _ hb)
          · cases h; exact World.Frame.refl _
        · split at h
          · cases h; exact World.Frame.refl _
          · split at h
            · cases h; exact World.Frame.refl _
            · exact frame_called h (fun _ _ hb => ihR _ _ _ _ _ hb)
    · intro id name w r w1 h
      simp only [ServiceScope.GetServiceOr] at h
      split at h
      · cases h; exact World.Frame.refl _
      · split at h
        · exact ihP _ _ _ _ h
        · split at h
          · split at h
            · split at h
              · cases h; exact World.Frame.refl _
              · split at h
                · cases h
                · cases h
                  exact frame_called (by assumption) (fun _ _ hb => ihR _ _ _ _ _ hb)
                · cases h
                  exact frame_called (by assumption) (fun _ _ hb => ihR _ _ _ _ _ hb)
                · split at h
                  · cases h
                    exact (frame_called (by assumption) (fun _ _ hb => ihR _ _ _ _ _ hb)).trans
                      (World.frame_setFoundInst _ _ _ _ _)
                  · cases h
                    exact frame_called (by assumption) (fun _ _ hb => ihR _ _ _ _ _ hb)
            · cases h; exact World.Frame.refl _
          · split at h
            · cases h; exact World.Frame.refl _
            · exact frame_called h (fun _ _ hb => ihR _ _ _ _ _ hb)
    · intro s p w r w1 h
      cases p with
      | ret inst err =>
        simp only [Prog.run] at h
        cases h; exact World.Frame.refl _
      | panic msg =>
        simp only [Prog.run] at h
        cases h; exact World.Frame.refl _
      | GetServiceOr name k =>
        simp only [Prog.run] at h
        split at h
        · cases h
        · cases h
          rename_i heq
          cases s with
          | root => exact ihP _ _ _ _ heq
          | scope id => exact ihS _ _ _ _ _ heq
        · rename_i heq
          refine World.Frame.trans ?_ (ihR _ _ _ _ _ h)
          cases s with
          | root => exact ihP _ _ _ _ heq
          | scope id => exact ihS _ _ _ _ _ heq
      | new ty fields k =>
        simp only [Prog.run] at h
        refine World.Frame.trans ?_ (ihR _ _ _ _ _ h)
        exact ⟨rfl, fun _ => rfl, rfl, List.prefix_append _ _, le_refl _, List.prefix_refl _⟩
      | getIncrement k =>
        simp only [Prog.run] at h
        refine World.Frame.trans ?_ (ihR _ _ _ _ _ h)
        exact ⟨rfl, fun _ => rfl, rfl, List.prefix_refl _, Nat.le_succ _, List.prefix_refl _⟩

/-! ## More fuel changes nothing -/

/-- A call that comes back with some fuel comes back the same with one more. -/
theorem fuel_succ_all (fuel : Nat) :
    (∀ name w x, ServiceProvider.GetServiceOr fuel name w = some x →
      ServiceProvider.GetServiceOr (fuel + 1) name w = some x) ∧
    (∀ id name w x, ServiceScope.GetServiceOr fuel id name w = some x →
      ServiceScope.GetServiceOr (fuel + 1) id name w = some x) ∧
    (∀ s p w x, Prog.run fuel s p w = some x → Prog.run (fuel + 1) s p w = some x) := by
  induction fuel with
  | zero =>
    refine ⟨?_, ?_, ?_⟩ <;> intros <;> simp_all [ServiceProvider.GetServiceOr, ServiceScope.GetServiceOr, Prog.run]
  | succ n ih =>
    obtain ⟨ihP, ihS, ihR⟩ := ih
    refine ⟨?_, ?_, ?_⟩
    · intro name w x h
      rw [ServiceProvider.GetServiceOr] at h ⊢
      cases hd : w.services name with
      | none => simpa only [hd] using h
      | some d =>
        simp only [hd] at h ⊢
        cases hf : d.factory with
        | none => simpa only [hf] using h
        | some f =>
          simp only [hf] at h ⊢
          cases hr : Prog.run n .root f w with
          | none =>
            simp only [hr] at h
            by_cases h0 : d.serv_type = ServiceTypeEnum.Singleton
            · by_cases hi : d.inst = .nil
              · simp only [h0, hi, if_true, called, Option.map_none'] at h
                cases h
              · simp only [h0, hi, if_true, if_false] at h ⊢
                exact h
            · by_cases h1 : d.serv_type = ServiceTypeEnum.Scoped
              · simp only [h0, h1, if_true, if_false] at h ⊢
                exact h
              · simp only [h0, h1, if_false, called, Option.map_none'] at h
                cases h
          | some y =>
            simp only [hr] at h
            simp only [ihR _ _ _ _ hr]
            exact h
    · intro id name w x h
      rw [ServiceScope.GetServiceOr] at h ⊢
      cases hl : ServiceScope.find w id name with
      | none => simpa only [hl] using h
      | some dq =>
        obtain ⟨d, own⟩ := dq
        simp only [hl] at h ⊢
        by_cases h0 : d.serv_type = ServiceTypeEnum.Singleton
        · simp only [h0, if_true] at h ⊢
          exact ihP _ _ _ h
        · simp only [h0, if_false] at h ⊢
          cases hf : d.factory with
          | none => simpa only [hf] using h
          | some f =>
            simp only [hf] at h ⊢
            cases hr : Prog.run n (.scope id) f w with
            | none =>
              simp only [hr] at h
              by_cases h1 : d.serv_type = ServiceTypeEnum.Scoped
              · by_cases hi : d.inst = .nil
                · simp only [h1, hi, if_true, called, Option.map_none'] at h
                  cases h
                · simp only [h1, hi, if_true, if_false] at h ⊢
                  exact h
              · simp only [h1, if_false, called, Option.map_none'] at h
                cases h
            | some y =>
              simp only [hr] at h
              simp only [ihR _ _ _ _ hr]
              exact h
    · intro s p w x h
      cases p with
      | ret inst err => simpa only [Prog.run] using h
      | panic msg => simpa only [Prog.run] using h
      | GetServiceOr name k =>
        simp only [Prog.run] at h ⊢
        cases s with
        | root =>
          cases hr : ServiceProvider.GetServiceOr n name w with
          | none => simp only [hr] at h; cases h
          | some y =>
            simp only [hr] at h
            simp only [ihP _ _ _ hr]
            obtain ⟨r, w1⟩ := y
            cases r with
            | panic msg => exact h
            | ok result err => exact ihR _ _ _ _ h
        | scope id =>
          cases hr : ServiceScope.GetServiceOr n id name w with
          | none => simp only [hr] at h; cases h
          | some y =>
            simp only [hr] at h
            simp only [ihS _ _ _ _ hr]
            obtain ⟨r, w1⟩ := y
            cases r with
            | panic msg => exact h
            | ok result err => exact ihR _ _ _ _ h
      | new ty fields k =>
        simp only [Prog.run] at h ⊢
        exact ihR _ _ _ _ h
      | getIncrement k =>
        simp only [Prog.run] at h ⊢
        exact ihR _ _ _ _ h

theorem provider_mono {n m : Nat} (h : n ≤ m) {name : String} {w : World}
    {x : Res × World} (hx : ServiceProvider.GetServiceOr n name w = some x) :
    ServiceProvider.GetServiceOr m name w = some x := by
  induction h with
  | refl => exact hx
  | step _ ih => exact (fuel_succ_all _).1 _ _ _ ih

theorem scope_mono {n m : Nat} (h : n ≤ m) {id : Nat} {name : String}
    {w : World} {x : Res × World} (hx : ServiceScope.GetServiceOr n id name w = some x) :
    ServiceScope.GetServiceOr m id name w = some x := by
  induction h with
  | refl => exact hx
  | step _ ih => exact (fuel_succ_all _).2.1 _ _ _ _ ih

theorem Prog.run_mono {n m : Nat} (h : n ≤ m) {s : Resolver} {p : Prog} {w : World}
    {x : Res × World} (hx : Prog.run n s p w = some x) : Prog.run m s p w = some x := by
  induction h with
  | refl => exact hx
  | step _ ih => exact (fuel_succ_all _).2.2 _ _ _ _ ih

theorem Prog.run_frame {fuel : Nat} {s : Resolver} {p : Prog} {w w1 : World} {r : Res}
    (h : Prog.run fuel s p w = some (r, w1)) : w.Frame w1 :=
  (frame_all fuel).2.2 _ _ _ _ _ h

theorem World.Frame.services_some {w w1 : World} (h : w.Frame w1) {name : String}
    {d : ServiceDescriptor} (hd : w.services name = some d) :
    ∃ d1, w1.services name = some d1 ∧ d1.inst_type = d.inst_type ∧
      d1.serv_type = d.serv_type ∧ d1.factory = d.factory := by
  have h1 := congrFun h.services name
  simp only [ServiceMap.registrations, hd, Option.map_some'] at h1
  cases hd1 : w1.services name with
  | none => simp [hd1] at h1
  | some d1 =>
    simp only [hd1, Option.map_some', Option.some.injEq, ServiceDescriptor.registration,
      Prod.mk.injEq] at h1
    exact ⟨d1, rfl, h1.1, h1.2.1, h1.2.2⟩

theorem World.Frame.services_none {w w1 : World} (h : w.Frame w1) {name : String}
    (hd : w.services name = none) : w1.services name = none := by
  have h1 := congrFun h.services name
  simp only [ServiceMap.registrations, hd, Option.map_none'] at h1
  cases hd1 : w1.services name with
  | none => rfl
  | some d1 => simp [hd1] at h1

theorem World.Frame.scopes_some {w w1 : World} (h : w.Frame w1) {id : Nat} {name : String}
    {d : ServiceDescriptor} (hd : w.scopes id name = some d) :
    ∃ d1, w1.scopes id name = some d1 ∧ d1.inst_type = d.inst_type ∧
      d1.serv_type = d.serv_type ∧ d1.factory = d.factory := by
  have h1 := congrFun (h.scopes id) name
  simp only [ServiceMap.registrations, hd, Option.map_some'] at h1
  cases hd1 : w1.scopes id name with
  | none => simp [hd1] at h1
  | some d1 =>
    simp only [hd1, Option.map_some', Option.some.injEq, ServiceDescriptor.registration,
      Prod.mk.injEq] at h1
    exact ⟨d1, rfl, h1.1, h1.2.1, h1.2.2⟩

theorem World.Frame.scopes_none {w w1 : World} (h : w.Frame w1) {id : Nat} {name : String}
    (hd : w.scopes id name = none) : w1.scopes id name = none := by
  have h1 := congrFun (h.scopes id) name
  simp only [ServiceMap.registrations, hd, Option.map_none'] at h1
  cases hd1 : w1.scopes id name with
  | none => rfl
  | some d1 => simp [hd1] at h1

theorem Value.ne_nil_of_isPointer {v : Value} (h : v.isPointer = true) : v ≠ .nil := by
  rintro rfl
  cases h

/-! ## One resolution of a Singleton, from the provider -/

/-- The first resolution of a Singleton: one call of the factory, whose
pointer is stored and returned. -/
theorem provider_construct {fuel : Nat} {X : String} {w w1 : World}
    {d : ServiceDescriptor} {f : Prog} {inst : Value}
    (hd : w.services X = some d) (hs : d.serv_type = ServiceTypeEnum.Singleton)
    (hnil : d.inst = .nil) (hf : d.factory = some f)
    (hrun : Prog.run fuel .root f w = some (.ok inst none, w1)) (hptr : inst.isPointer = true) :
    ServiceProvider.GetServiceOr (fuel + 1) X w =
      some (.ok inst none, (w1.invoked X .root).setProviderInst X inst) := by
  simp only [ServiceProvider.GetServiceOr, hd, hs, hnil, hf, hrun, called, Option.map_some',
    hptr, if_true]

/-- The resolution of a Singleton that holds an instance: the instance, and
nothing else happens. -/
theorem provider_memoized {fuel : Nat} {X : String} {w : World}
    {d : ServiceDescriptor}
    (hd : w.services X = some d) (hs : d.serv_type = ServiceTypeEnum.Singleton)
    (hinst : d.inst ≠ .nil) :
    ServiceProvider.GetServiceOr (fuel + 1) X w = some (.ok d.inst none, w) := by
  simp only [ServiceProvider.GetServiceOr, hd, hs, hinst, if_true, if_false]

theorem World.services_setProviderInst (w : World) (X : String) (inst : Value) :
    (w.setProviderInst X inst).services X = (w.services X).map fun d => { d with inst := inst } := by
  simp only [World.setProviderInst, ServiceMap.setInst, if_true]

theorem World.scopes_setScopeInst (w : World) (id : Nat) (X : String) (inst : Value) :
    (w.setScopeInst id X inst).scopes id X =
      (w.scopes id X).map fun d => { d with inst := inst } := by
  simp only [World.setScopeInst, ServiceMap.setInst, if_true]

/-- A call that returns without changing the state returns the same every
time it is repeated. -/
theorem resolveAll_replicate_fixed {fuel : Nat} {s : Resolver} {X : String} {w : World}
    {v : Value} {e : Option GoError}
    (h : IServiceProvider.GetServiceOr fuel s X w = some (.ok v e, w)) (N : Nat) :
    resolveAll fuel s (List.replicate N X) w = some (List.replicate N (.ok v e), w) := by
  induction N with
  | zero => rfl
  | succ n ih => simp only [List.replicate_succ, resolveAll, h, ih, Option.map_some']

/-! ## One resolution of a Scoped identity, from a scope -/

theorem ServiceScope.find_eq_some {w : World} {id : Nat} {X : String} {d : ServiceDescriptor}
    {own : Bool} :
    ServiceScope.find w id X = some (d, own) ↔
      (own = true ∧ w.scopes id X = some d) ∨
      (own = false ∧ w.scopes id X = none ∧ w.services X = some d) := by
  unfold ServiceScope.find
  cases h1 : w.scopes id X with
  | some d1 =>
    simp only [Option.some.injEq, Prod.mk.injEq, reduceCtorEq, false_and, and_false, or_false]
    constructor
    · rintro ⟨rfl, rfl⟩; exact ⟨rfl, rfl⟩
    · rintro ⟨rfl, rfl⟩; exact ⟨rfl, rfl⟩
  | none =>
    cases h2 : w.services X with
    | some d2 =>
      simp only [Option.some.injEq, Prod.mk.injEq, reduceCtorEq, and_false, true_and, false_or]
      constructor
      · rintro ⟨rfl, rfl⟩; exact ⟨rfl, rfl⟩
      · rintro ⟨rfl, rfl⟩; exact ⟨rfl, rfl⟩
    | none => simp

/-- The descriptor a scope finds under a name keeps its registration, and
stays on the same side (own or the provider's), through any later state with
the same registrations. -/
theorem World.Frame.find_some {w w1 : World} (h : w.Frame w1) {id : Nat} {X : String}
    {d : ServiceDescriptor} {own : Bool} (hd : ServiceScope.find w id X = some (d, own)) :
    ∃ d1, ServiceScope.find w1 id X = some (d1, own) ∧ d1.inst_type = d.inst_type ∧
      d1.serv_type = d.serv_type ∧ d1.factory = d.factory := by
  rcases ServiceScope.find_eq_some.1 hd with ⟨rfl, h1⟩ | ⟨rfl, h1, h2⟩
  · obtain ⟨d1, hd1, h⟩ := h.scopes_some h1
    exact ⟨d1, ServiceScope.find_eq_some.2 (Or.inl ⟨rfl, hd1⟩), h⟩
  · obtain ⟨d1, hd1, h'⟩ := h.services_some h2
    exact ⟨d1, ServiceScope.find_eq_some.2 (Or.inr ⟨rfl, h.scopes_none h1, hd1⟩), h'⟩

theorem ServiceScope.find_setFoundInst {w : World} {id : Nat} {X : String}
    {d : ServiceDescriptor} {own : Bool} (hd : ServiceScope.find w id X = some (d, own))
    (inst : Value) :
    ServiceScope.find (w.setFoundInst id own X inst) id X = some ({ d with inst := inst }, own) := by
  rcases ServiceScope.find_eq_some.1 hd with ⟨rfl, h1⟩ | ⟨rfl, h1, h2⟩
  · refine ServiceScope.find_eq_some.2 (Or.inl ⟨rfl, ?_⟩)
    simp only [World.setFoundInst, if_true, World.scopes_setScopeInst, h1, Option.map_some']
  · refine ServiceScope.find_eq_some.2 (Or.inr ⟨rfl, ?_, ?_⟩)
    · simpa only [World.setFoundInst, Bool.false_eq_true, if_false] using h1
    · simp only [World.setFoundInst, Bool.false_eq_true, if_false, World.services_setProviderInst,
        h2, Option.map_some']

/-- The first resolution of a Scoped identity in a scope: one call of the
factory with the scope as resolver, whose pointer is stored and returned. -/
theorem scope_construct {fuel id : Nat} {X : String} {w w1 : World}
    {d : ServiceDescriptor} {own : Bool} {f : Prog} {inst : Value}
    (hd : ServiceScope.find w id X = some (d, own)) (hs : d.serv_type = ServiceTypeEnum.Scoped)
    (hnil : d.inst = .nil) (hf : d.factory = some f)
    (hrun : Prog.run fuel (.scope id) f w = some (.ok inst none, w1))
    (hptr : inst.isPointer = true) :
    ServiceScope.GetServiceOr (fuel + 1) id X w =
      some (.ok inst none, (w1.invoked X (.scope id)).setFoundInst id own X inst) := by
  have h0 : d.serv_type ≠ ServiceTypeEnum.Singleton := by rw [hs]; decide
  simp only [ServiceScope.GetServiceOr, hd, if_neg h0, if_pos hs, hnil, hf, hrun, called,
    Option.map_some', hptr, if_true]

/-- The resolution of a Scoped identity that holds an instance: the instance,
and nothing else happens. -/
theorem scope_memoized {fuel id : Nat} {X : String} {w : World}
    {d : ServiceDescriptor} {own : Bool}
    (hd : ServiceScope.find w id X = some (d, own)) (hs : d.serv_type = ServiceTypeEnum.Scoped)
    (hinst : d.inst ≠ .nil) :
    ServiceScope.GetServiceOr (fuel + 1) id X w = some (.ok d.inst none, w) := by
  have h0 : d.serv_type ≠ ServiceTypeEnum.Singleton := by rw [hs]; decide
  simp only [ServiceScope.GetServiceOr, hd, if_neg h0, if_pos hs, hinst, if_false]

/-! ## A factory that returns no pointer is never memoized -/

theorem called_eq_some {name : String} {s : Resolver} {body : Option (Res × World)} {r : Res}
    {w1 : World} (h : called name s body = some (r, w1)) :
    ∃ w0, body = some (r, w0) ∧ w1 = w0.invoked name s := by
  cases body with
  | none => cases h
  | some out =>
    obtain ⟨r0, w0⟩ := out
    simp only [called, Option.map_some', Option.some.injEq, Prod.mk.injEq] at h
    exact ⟨w0, by rw [h.1], h.2.symm⟩

theorem World.unbuilt_setProviderInst {w : World} {loc : Resolver} {X : String} {f : Prog}
    (h : w.Unbuilt loc X f) (name : String) (inst : Value)
    (hne : ¬ (loc = .root ∧ name = X)) : (w.setProviderInst name inst).Unbuilt loc X f := by
  obtain ⟨d, hd, hf, hi⟩ := h
  cases loc with
  | scope id => exact ⟨d, hd, hf, hi⟩
  | root =>
    have hX : X ≠ name := fun e => hne ⟨rfl, e.symm⟩
    refine ⟨d, ?_, hf, hi⟩
    simpa only [World.mapOf, World.setProviderInst, ServiceMap.setInst, if_neg hX] using hd

theorem World.unbuilt_setScopeInst {w : World} {loc : Resolver} {X : String} {f : Prog}
    (h : w.Unbuilt loc X f) (id : Nat) (name : String) (inst : Value)
    (hne : ¬ (loc = .scope id ∧ name = X)) : (w.setScopeInst id name inst).Unbuilt loc X f := by
  obtain ⟨d, hd, hf, hi⟩ := h
  cases loc with
  | root => exact ⟨d, hd, hf, hi⟩
  | scope j =>
    refine ⟨d, ?_, hf, hi⟩
    by_cases hj : j = id
    · subst hj
      have hX : X ≠ name := fun e => hne ⟨rfl, e.symm⟩
      simpa only [World.mapOf, World.setScopeInst, ServiceMap.setInst, if_true, if_neg hX] using hd
    · simpa only [World.mapOf, World.setScopeInst, if_neg hj] using hd

theorem World.unbuilt_invoked {w : World} {loc : Resolver} {X : String} {f : Prog}
    (h : w.Unbuilt loc X f) (name : String) (s : Resolver) : (w.invoked name s).Unbuilt loc X f := by
  obtain ⟨d, hd, hf, hi⟩ := h
  refine ⟨d, ?_, hf, hi⟩
  cases loc <;> exact hd

/-- No call stores an instance in a descriptor whose factory returns no
pointer. -/
theorem unbuilt_all {f : Prog} (hnp : f.ReturnsNoPointer) (loc : Resolver) (X : String)
    (fuel : Nat) :
    (∀ name w r w1, ServiceProvider.GetServiceOr fuel name w = some (r, w1) →
      w.Unbuilt loc X f → w1.Unbuilt loc X f) ∧
    (∀ id name w r w1, ServiceScope.GetServiceOr fuel id name w = some (r, w1) →
      w.Unbuilt loc X f → w1.Unbuilt loc X f) ∧
    (∀ s p w r w1, Prog.run fuel s p w = some (r, w1) →
      w.Unbuilt loc X f → w1.Unbuilt loc X f) := by
  induction fuel with
  | zero =>
    refine ⟨?_, ?_, ?_⟩ <;> intros <;> simp_all [ServiceProvider.GetServiceOr, ServiceScope.GetServiceOr, Prog.run]
  | succ n ih =>
    obtain ⟨ihP, ihS, ihR⟩ := ih
    have hcalled : ∀ {name s g w r w1}, called name s (Prog.run n s g w) = some (r, w1) →
        w.Unbuilt loc X f → w1.Unbuilt loc X f := by
      intro name s g w r w1 hc hu
      obtain ⟨w0, hb, rfl⟩ := called_eq_some hc
      exact World.unbuilt_invoked (ihR _ _ _ _ _ hb hu) _ _
    refine ⟨?_, ?_, ?_⟩
    · intro name w r w1 h hu
      simp only [ServiceProvider.GetServiceOr] at h
      cases hd : w.services name with
      | none => simp only [hd] at h; cases h; exact hu
      | some d =>
        simp only [hd] at h
        cases hf : d.factory with
        | none =>
          simp only [hf] at h
          split at h
          · split at h <;> (cases h; exact hu)
          · split at h <;> (cases h; exact hu)
        | some g =>
          simp only [hf] at h
          split at h
          · split at h
            · cases hc : called name .root (Prog.run n .root g w) with
              | none => simp only [hc] at h; cases h
              | some out =>
                obtain ⟨r0, w0⟩ := out
                have hu0 := hcalled hc hu
                simp only [hc] at h
                cases r0 with
                | panic msg => cases h; exact hu0
                | ok inst err =>
                  cases err with
                  | some e => cases h; exact hu0
                  | none =>
                    simp only at h
                    split at h
                    · rename_i hptr
                      cases h
                      refine World.unbuilt_setProviderInst hu0 _ _ ?_
                      rintro ⟨rfl, rfl⟩
                      obtain ⟨d', hd', hf', -⟩ := hu
                      have hdd : d' = d := Option.some.inj (hd'.symm.trans hd)
                      subst hdd
                      have hgf : g = f := Option.some.inj (hf.symm.trans hf')
                      subst hgf
                      obtain ⟨w00, hb, -⟩ := called_eq_some hc
                      have := hnp _ _ _ _ _ hb
                      rw [hptr] at this
                      cases this
                    · cases h; exact hu0
            · cases h; exact hu
          · split at h
            · cases h; exact hu
            · exact hcalled h hu
    · intro id name w r w1 h hu
      simp only [ServiceScope.GetServiceOr] at h
      cases hd : ServiceScope.find w id name with
      | none => simp only [hd] at h; cases h; exact hu
      | some dq =>
        obtain ⟨d, own⟩ := dq
        simp only [hd] at h
        split at h
        · exact ihP _ _ _ _ h hu
        · cases hf : d.factory with
          | none =>
            simp only [hf] at h
            split at h
            · split at h <;> (cases h; exact hu)
            · cases h; exact hu
          | some g =>
            simp only [hf] at h
            split at h
            · split at h
              · cases hc : called name (.scope id) (Prog.run n (.scope id) g w) with
                | none => simp only [hc] at h; cases h
                | some out =>
                  obtain ⟨r0, w0⟩ := out
                  have hu0 := hcalled hc hu
                  simp only [hc] at h
                  cases r0 with
                  | panic msg => cases h; exact hu0
                  | ok inst err =>
                    cases err with
                    | some e => cases h; exact hu0
                    | none =>
                      simp only at h
                      split at h
                      · rename_i hptr
                        cases h
                        have hcontra : ∀ d', w.mapOf loc X = some d → d' = d → False := by
                          intro d' hm _
                          obtain ⟨d'', hd'', hf'', -⟩ := hu
                          have hdd : d'' = d := Option.some.inj (hd''.symm.trans hm)
                          subst hdd
                          have hgf : g = f := Option.some.inj (hf.symm.trans hf'')
                          subst hgf
                          obtain ⟨w00, hb, -⟩ := called_eq_some hc
                          have := hnp _ _ _ _ _ hb
                          rw [hptr] at this
                          cases this
                        rcases ServiceScope.find_eq_some.1 hd with ⟨rfl, h1⟩ | ⟨rfl, h1, h2⟩
                        · simp only [World.setFoundInst, if_true]
                          refine World.unbuilt_setScopeInst hu0 _ _ _ ?_
                          rintro ⟨rfl, rfl⟩
                          exact hcontra d h1 rfl
                        · simp only [World.setFoundInst, Bool.false_eq_true, if_false]
                          refine World.unbuilt_setProviderInst hu0 _ _ ?_
                          rintro ⟨rfl, rfl⟩
                          exact hcontra d h2 rfl
                      · cases h; exact hu0
              · cases h; exact hu
            · exact hcalled h hu
    · intro s p w r w1 h hu
      cases p with
      | ret inst err =>
        simp only [Prog.run] at h
        cases h; exact hu
      | panic msg =>
        simp only [Prog.run] at h
        cases h; exact hu
      | GetServiceOr name k =>
        simp only [Prog.run] at h
        split at h
        · cases h
        · cases h
          rename_i heq
          cases s with
          | root => exact ihP _ _ _ _ heq hu
          | scope id => exact ihS _ _ _ _ _ heq hu
        · rename_i heq
          refine ihR _ _ _ _ _ h ?_
          cases s with
          | root => exact ihP _ _ _ _ heq hu
          | scope id => exact ihS _ _ _ _ _ heq hu
      | new ty fields k =>
        simp only [Prog.run] at h
        refine ihR _ _ _ _ _ h ?_
        obtain ⟨d, hd, hf, hi⟩ := hu
        exact ⟨d, by cases loc <;> exact hd, hf, hi⟩
      | getIncrement k =>
        simp only [Prog.run] at h
        refine ihR _ _ _ _ _ h ?_
        obtain ⟨d, hd, hf, hi⟩ := hu
        exact ⟨d, by cases loc <;> exact hd, hf, hi⟩

/-- The factory of `MyService2` in `Test_Error` never returns a pointer. -/
theorem valueMyService2_returnsNoPointer : valueMyService2.ReturnsNoPointer := by
  intro fuel s w inst w1 h
  unfold valueMyService2 Prog.GetServiceT Prog.GetServiceOrT at h
  cases fuel with
  | zero => simp [Prog.run] at h
  | succ n =>
    simp only [Prog.run] at h
    split at h
    · cases h
    · cases h
    · rename_i result err w0 _
      cases htr : typedResult (fun _ _ => false) (.ptr tMyService) result err with
      | panic msg =>
        simp only [htr] at h
        cases n <;> simp [Prog.run] at h
      | ok v e =>
        simp only [htr] at h
        cases e with
        | some e' => cases n <;> simp [Prog.run] at h
        | none =>
          cases n with
          | zero => simp [Prog.run] at h
          | succ m =>
            simp only [Prog.run, Option.some.injEq, Prod.mk.injEq, Res.ok.injEq] at h
            rw [← h.1.1]
            rfl

/-! ## A Singleton that holds another -/

/-- The construction of a Singleton whose factory is `newHolding`, given what
the resolution of the held identity does. -/
theorem provider_construct_holding (implements : GoType → GoType → Bool) (B : GoType)
    {n addr : Nat} {A : GoType} {XB : String} {w w1 : World} {dB : ServiceDescriptor}
    (hres : ServiceProvider.GetServiceOr (n + 1) A.Name w =
      some (.ok (.mk (.ptr A) addr) none, w1))
    (hdB : w.services XB = some dB) (hsB : dB.serv_type = ServiceTypeEnum.Singleton)
    (hnB : dB.inst = .nil) (hfB : dB.factory = some (newHolding implements A B)) :
    ServiceProvider.GetServiceOr (n + 4) XB w =
      some (.ok (.mk (.ptr B) (w1.heap.length + 1)) none,
        (({ w1 with heap := w1.heap ++ [(B, [.mk (.ptr A) addr])] } : World).invoked XB
          .root).setProviderInst XB (.mk (.ptr B) (w1.heap.length + 1))) := by
  have h2 : ServiceProvider.GetServiceOr (n + 2) A.Name w =
      some (.ok (.mk (.ptr A) addr) none, w1) := provider_mono (Nat.le_succ _) hres
  have hrun : Prog.run (n + 3) .root (newHolding implements A B) w =
      some (.ok (.mk (.ptr B) (w1.heap.length + 1)) none,
        { w1 with heap := w1.heap ++ [(B, [.mk (.ptr A) addr])] }) := by
    simp [newHolding, Prog.GetServiceT, Prog.GetServiceOrT, Prog.run, GetTypeOf, h2, typedResult,
      typeAssertion, GoType.isPointer]
  exact provider_construct hdB hsB hnB hfB hrun rfl

/-- A scope that finds a Singleton of the provider hands the call to the
provider. -/
theorem scope_delegates {id : Nat} {X : String} {w : World} {d : ServiceDescriptor}
    (hown : w.scopes id X = none) (hd : w.services X = some d)
    (hs : d.serv_type = ServiceTypeEnum.Singleton) (fuel : Nat) :
    ServiceScope.GetServiceOr (fuel + 1) id X w = ServiceProvider.GetServiceOr fuel X w := by
  simp only [ServiceScope.GetServiceOr, ServiceScope.find, hown, hd, hs, if_true]

theorem World.services_setProviderInst_of_ne (w : World) {X Y : String} (h : Y ≠ X)
    (inst : Value) : (w.setProviderInst X inst).services Y = w.services Y := by
  simp only [World.setProviderInst, ServiceMap.setInst, if_neg h]

/-! ## A constructed Singleton is never written again -/

/-- No call changes the descriptor of a Singleton that holds an instance. -/
theorem kept_all {X : String} {d : ServiceDescriptor}
    (hds : d.serv_type = ServiceTypeEnum.Singleton) (hdi : d.inst ≠ .nil) (fuel : Nat) :
    (∀ name w r w1, ServiceProvider.GetServiceOr fuel name w = some (r, w1) →
      w.services X = some d → w1.services X = some d) ∧
    (∀ id name w r w1, ServiceScope.GetServiceOr fuel id name w = some (r, w1) →
      w.services X = some d → w1.services X = some d) ∧
    (∀ s p w r w1, Prog.run fuel s p w = some (r, w1) →
      w.services X = some d → w1.services X = some d) := by
  induction fuel with
  | zero =>
    refine ⟨?_, ?_, ?_⟩ <;> intros <;> simp_all [ServiceProvider.GetServiceOr, ServiceScope.GetServiceOr, Prog.run]
  | succ n ih =>
    obtain ⟨ihP, ihS, ihR⟩ := ih
    have hcalled : ∀ {name s g w r w1}, called name s (Prog.run n s g w) = some (r, w1) →
        w.services X = some d → w1.services X = some d := by
      intro name s g w r w1 hc hk
      obtain ⟨w0, hb, rfl⟩ := called_eq_some hc
      exact (ihR _ _ _ _ _ hb hk : w0.services X = some d)
    refine ⟨?_, ?_, ?_⟩
    · intro name w r w1 h hk
      simp only [ServiceProvider.GetServiceOr] at h
      cases hd : w.services name with
      | none => simp only [hd] at h; cases h; exact hk
      | some d' =>
        simp only [hd] at h
        by_cases hs : d'.serv_type = ServiceTypeEnum.Singleton
        · by_cases hi : d'.inst = .nil
          · simp only [if_pos hs, if_pos hi] at h
            have hne : X ≠ name := by
              rintro rfl
              exact hdi (Option.some.inj (hk.symm.trans hd) ▸ hi)
            cases hf : d'.factory with
            | none => simp only [hf] at h; cases h; exact hk
            | some g =>
              simp only [hf] at h
              cases hc : called name .root (Prog.run n .root g w) with
              | none => simp only [hc] at h; cases h
              | some out =>
                obtain ⟨r0, w0⟩ := out
                have hk0 := hcalled hc hk
                simp only [hc] at h
                cases r0 with
                | panic msg => cases h; exact hk0
                | ok inst err =>
                  cases err with
                  | some e => cases h; exact hk0
                  | none =>
                    simp only at h
                    split at h
                    · cases h
                      rw [World.services_setProviderInst_of_ne _ hne]; exact hk0
                    · cases h; exact hk0
          · simp only [if_pos hs, if_neg hi] at h
            cases h; exact hk
        · simp only [if_neg hs] at h
          split at h
          · cases h; exact hk
          · cases hf : d'.factory with
            | none => simp only [hf] at h; cases h; exact hk
            | some g => simp only [hf] at h; exact hcalled h hk
    · intro id name w r w1 h hk
      simp only [ServiceScope.GetServiceOr] at h
      cases hd : ServiceScope.find w id name with
      | none => simp only [hd] at h; cases h; exact hk
      | some dq =>
        obtain ⟨d', own⟩ := dq
        simp only [hd] at h
        by_cases hs : d'.serv_type = ServiceTypeEnum.Singleton
        · simp only [if_pos hs] at h
          exact ihP _ _ _ _ h hk
        · simp only [if_neg hs] at h
          by_cases hsc : d'.serv_type = ServiceTypeEnum.Scoped
          · simp only [if_pos hsc] at h
            by_cases hi : d'.inst = .nil
            · simp only [if_pos hi] at h
              cases hf : d'.factory with
              | none => simp only [hf] at h; cases h; exact hk
              | some g =>
                simp only [hf] at h
                cases hc : called name (.scope id) (Prog.run n (.scope id) g w) with
                | none => simp only [hc] at h; cases h
                | some out =>
                  obtain ⟨r0, w0⟩ := out
                  have hk0 := hcalled hc hk
                  simp only [hc] at h
                  cases r0 with
                  | panic msg => cases h; exact hk0
                  | ok inst err =>
                    cases err with
                    | some e => cases h; exact hk0
                    | none =>
                      simp only at h
                      split at h
                      · cases h
                        rcases ServiceScope.find_eq_some.1 hd with ⟨rfl, -⟩ | ⟨rfl, -, h2⟩
                        · exact hk0
                        · have hne : X ≠ name := by
                            rintro rfl
                            exact hs (Option.some.inj (hk.symm.trans h2) ▸ hds)
                          simp only [World.setFoundInst, Bool.false_eq_true, if_false]
                          rw [World.services_setProviderInst_of_ne _ hne]; exact hk0
                      · cases h; exact hk0
            · simp only [if_neg hi] at h
              cases h; exact hk
          · simp only [if_neg hsc] at h
            cases hf : d'.factory with
            | none => simp only [hf] at h; cases h; exact hk
            | some g => simp only [hf] at h; exact hcalled h hk
    · intro s p w r w1 h hk
      cases p with
      | ret inst err =>
        simp only [Prog.run] at h
        cases h; exact hk
      | panic msg =>
        simp only [Prog.run] at h
        cases h; exact hk
      | GetServiceOr name k =>
        simp only [Prog.run] at h
        split at h
        · cases h
        · cases h
          rename_i heq
          cases s with
          | root => exact ihP _ _ _ _ heq hk
          | scope id => exact ihS _ _ _ _ _ heq hk
        · rename_i heq
          refine ihR _ _ _ _ _ h ?_
          cases s with
          | root => exact ihP _ _ _ _ heq hk
          | scope id => exact ihS _ _ _ _ _ heq hk
      | new ty fields k =>
        simp only [Prog.run] at h
        exact ihR _ _ _ _ _ h hk
      | getIncrement k =>
        simp only [Prog.run] at h
        exact ihR _ _ _ _ _ h hk

/-- A constructed Singleton keeps its descriptor through every later state. -/
theorem World.Later.kept {X : String} {d : ServiceDescriptor} {w w1 : World}
    (h : w.Later w1) (hds : d.serv_type = ServiceTypeEnum.Singleton) (hdi : d.inst ≠ .nil)
    (hk : w.services X = some d) : w1.services X = some d := by
  induction h with
  | refl => exact hk
  | resolve fuel s name r _ hcall ih =>
    cases s with
    | root => exact (kept_all hds hdi fuel).1 _ _ _ _ hcall ih
    | scope id => exact (kept_all hds hdi fuel).2.1 _ _ _ _ _ hcall ih
  | createScope _ ih => exact ih

/-! ## Only the identities whose factories were called can change -/

theorem World.Grown.nil (w : World) : w.Grown w [] :=
  ⟨by simp, fun _ _ => ⟨rfl, fun _ => rfl⟩⟩

theorem World.Grown.append {w w1 w2 : World} {e1 e2 : List (String × Resolver)}
    (h1 : w.Grown w1 e1) (h2 : w1.Grown w2 e2) : w.Grown w2 (e1 ++ e2) := by
  refine ⟨by rw [h2.1, h1.1, List.append_assoc], fun X hX => ?_⟩
  have hX1 : ∀ r, (X, r) ∉ e1 := fun r hr => hX r (List.mem_append_left _ hr)
  have hX2 : ∀ r, (X, r) ∉ e2 := fun r hr => hX r (List.mem_append_right _ hr)
  obtain ⟨a1, b1⟩ := h1.2 X hX1
  obtain ⟨a2, b2⟩ := h2.2 X hX2
  exact ⟨a2.trans a1, fun id => (b2 id).trans (b1 id)⟩

theorem World.grown_invoked (w : World) (name : String) (s : Resolver) :
    w.Grown (w.invoked name s) [(name, s)] :=
  ⟨rfl, fun _ _ => ⟨rfl, fun _ => rfl⟩⟩

theorem World.grown_setProviderInst (w : World) (name : String) (s : Resolver) (inst : Value) :
    w.Grown ((w.invoked name s).setProviderInst name inst) [(name, s)] := by
  refine ⟨rfl, fun X hX => ⟨?_, fun _ => rfl⟩⟩
  have hne : X ≠ name := by
    rintro rfl
    exact hX s (List.mem_singleton.2 rfl)
  rw [World.services_setProviderInst_of_ne _ hne]; rfl

theorem World.grown_setFoundInst (w : World) (id : Nat) (own : Bool) (name : String)
    (s : Resolver) (inst : Value) :
    w.Grown ((w.invoked name s).setFoundInst id own name inst) [(name, s)] := by
  cases own with
  | false => exact World.grown_setProviderInst w name s inst
  | true =>
    refine ⟨rfl, fun X hX => ⟨rfl, fun j => ?_⟩⟩
    have hne : X ≠ name := by
      rintro rfl
      exact hX s (List.mem_singleton.2 rfl)
    simp only [World.setFoundInst, if_true, World.setScopeInst, World.invoked]
    split
    · simp only [ServiceMap.setInst, if_neg hne]
    · rfl

/-- Every call that comes back has changed descriptors only of identities whose
factory it has called, directly or in a nested resolution. -/
theorem grown_all (fuel : Nat) :
    (∀ name w r w1, ServiceProvider.GetServiceOr fuel name w = some (r, w1) →
      ∃ evs, w.Grown w1 evs) ∧
    (∀ id name w r w1, ServiceScope.GetServiceOr fuel id name w = some (r, w1) →
      ∃ evs, w.Grown w1 evs) ∧
    (∀ s p w r w1, Prog.run fuel s p w = some (r, w1) → ∃ evs, w.Grown w1 evs) := by
  induction fuel with
  | zero =>
    refine ⟨?_, ?_, ?_⟩ <;> intros <;> simp_all [ServiceProvider.GetServiceOr, ServiceScope.GetServiceOr, Prog.run]
  | succ n ih =>
    obtain ⟨ihP, ihS, ihR⟩ := ih
    have hcalled : ∀ {name s g w r w1}, called name s (Prog.run n s g w) = some (r, w1) →
        ∃ evs w0, w.Grown w0 evs ∧ w1 = w0.invoked name s := by
      intro name s g w r w1 hc
      obtain ⟨w0, hb, rfl⟩ := called_eq_some hc
      obtain ⟨evs, he⟩ := ihR _ _ _ _ _ hb
      exact ⟨evs, w0, he, rfl⟩
    have hplain : ∀ {name s g w r w1}, called name s (Prog.run n s g w) = some (r, w1) →
        ∃ evs, w.Grown w1 evs := by
      intro name s g w r w1 hc
      obtain ⟨evs, w0, he, rfl⟩ := hcalled hc
      exact ⟨_, he.append (World.grown_invoked _ _ _)⟩
    refine ⟨?_, ?_, ?_⟩
    · intro name w r w1 h
      simp only [ServiceProvider.GetServiceOr] at h
      split at h
      · cases h; exact ⟨_, World.Grown.nil _⟩
      · split at h
        · split at h
          · split at h
            · cases h; exact ⟨_, World.Grown.nil _⟩
            · split at h
              · cases h
              · cases h
                exact hplain (by assumption)
              · cases h
                exact hplain (by assumption)
              · split at h
                · cases h
                  rename_i hc _
                  obtain ⟨evs, w0, he, rfl⟩ := hcalled hc
                  exact ⟨_, he.append (World.grown_setProviderInst _ _ _ _)⟩
                · cases h
                  exact hplain (by assumption)
          · cases h; exact ⟨_, World.Grown.nil _⟩
        · split at h
          · cases h; exact ⟨_, World.Grown.nil _⟩
          · split at h
            · cases h; exact ⟨_, World.Grown.nil _⟩
            · exact hplain h
    · intro id name w r w1 h
      simp only [ServiceScope.GetServiceOr] at h
      split at h
      · cases h; exact ⟨_, World.Grown.nil _⟩
      · split at h
        · exact ihP _ _ _ _ h
        · split at h
          · split at h
            · split at h
              · cases h; exact ⟨_, World.Grown.nil _⟩
              · split at h
                · cases h
                · cases h
                  exact hplain (by assumption)
                · cases h
                  exact hplain (by assumption)
                · split at h
                  · cases h
                    rename_i hc _
                    obtain ⟨evs, w0, he, rfl⟩ := hcalled hc
                    exact ⟨_, he.append (World.grown_setFoundInst _ _ _ _ _ _)⟩
                  · cases h
                    exact hplain (by assumption)
            · cases h; exact ⟨_, World.Grown.nil _⟩
          · split at h
            · cases h; exact ⟨_, World.Grown.nil _⟩
            · exact hplain h
    · intro s p w r w1 h
      cases p with
      | ret inst err =>
        simp only [Prog.run] at h
        cases h; exact ⟨_, World.Grown.nil _⟩
      | panic msg =>
        simp only [Prog.run] at h
        cases h; exact ⟨_, World.Grown.nil _⟩
      | GetServiceOr name k =>
        simp only [Prog.run] at h
        split at h
        · cases h
        · cases h
          rename_i heq
          cases s with
          | root => exact ihP _ _ _ _ heq
          | scope id => exact ihS _ _ _ _ _ heq
        · rename_i result err w0 heq
          obtain ⟨e2, h2⟩ := ihR _ _ _ _ _ h
          have h1 : ∃ evs, w.Grown w0 evs := by
            cases s with
            | root => exact ihP _ _ _ _ heq
            | scope id => exact ihS _ _ _ _ _ heq
          obtain ⟨e1, h1⟩ := h1
          exact ⟨_, h1.append h2⟩
      | new ty fields k =>
        simp only [Prog.run] at h
        obtain ⟨e2, h2⟩ := ihR _ _ _ _ _ h
        have h1 : w.Grown { w with heap := w.heap ++ [(ty, fields)] } [] :=
          ⟨by simp, fun _ _ => ⟨rfl, fun _ => rfl⟩⟩
        exact ⟨_, h1.append h2⟩
      | getIncrement k =>
        simp only [Prog.run] at h
        obtain ⟨e2, h2⟩ := ihR _ _ _ _ _ h
        have h1 : w.Grown { w with counter := w.counter + 1 } [] :=
          ⟨by simp, fun _ _ => ⟨rfl, fun _ => rfl⟩⟩
        exact ⟨_, h1.append h2⟩

theorem Prog.run_grown {fuel : Nat} {s : Resolver} {p : Prog} {w w1 : World} {r : Res}
    (h : Prog.run fuel s p w = some (r, w1)) : ∃ evs, w.Grown w1 evs :=
  (grown_all fuel).2.2 _ _ _ _ _ h

/-! ## The state after a resolution that returns an error -/

/-- A provider resolution that returns an error has changed nothing, or has
called the factory of the identity and stored nothing after it. -/
theorem provider_error_state {fuel : Nat} {X : String} {w w' : World} {v : Value} {e : GoError}
    (h : ServiceProvider.GetServiceOr fuel X w = some (.ok v (some e), w')) :
    w' = w ∨ ∃ d f n res w1, w.services X = some d ∧ d.factory = some f ∧
      Prog.run n .root f w = some (res, w1) ∧ w' = w1.invoked X .root := by
  cases fuel with
  | zero => simp [ServiceProvider.GetServiceOr] at h
  | succ n =>
    simp only [ServiceProvider.GetServiceOr] at h
    obtain ⟨o, hd⟩ : ∃ o, w.services X = o := ⟨_, rfl⟩
    cases o with
    | none =>
      simp only [hd, Option.some.injEq, Prod.mk.injEq] at h
      exact Or.inl h.2.symm
    | some d =>
      simp only [hd] at h
      cases hf : d.factory with
      | none =>
        simp only [hf] at h
        split at h
        · split at h
          · cases h
          · simp only [Option.some.injEq, Prod.mk.injEq] at h
            exact Or.inl h.2.symm
        · split at h
          · simp only [Option.some.injEq, Prod.mk.injEq] at h
            exact Or.inl h.2.symm
          · cases h
      | some g =>
        simp only [hf] at h
        have key : ∀ r0 w0, called X .root (Prog.run n .root g w) = some (r0, w0) → w' = w0 →
            w' = w ∨ ∃ d f n res w1, w.services X = some d ∧ d.factory = some f ∧
              Prog.run n .root f w = some (res, w1) ∧ w' = w1.invoked X .root := by
          intro r0 w0 hc hw
          obtain ⟨w1, hb, rfl⟩ := called_eq_some hc
          exact Or.inr ⟨d, g, n, r0, w1, hd, hf, hb, hw⟩
        split at h
        · split at h
          · cases hc : called X .root (Prog.run n .root g w) with
            | none => simp only [hc] at h; cases h
            | some out =>
              obtain ⟨r0, w0⟩ := out
              simp only [hc] at h
              cases r0 with
              | panic msg => cases h
              | ok inst err =>
                cases err with
                | some e' =>
                  simp only [Option.some.injEq, Prod.mk.injEq] at h
                  exact key _ _ hc h.2.symm
                | none =>
                  simp only at h
                  split at h
                  · cases h
                  · simp only [Option.some.injEq, Prod.mk.injEq] at h
                    exact key _ _ hc h.2.symm
          · cases h
        · split at h
          · simp only [Option.some.injEq, Prod.mk.injEq] at h
            exact Or.inl h.2.symm
          · exact key _ _ h rfl

/-- A scope resolution that returns an error has changed nothing, or has
called the factory of the identity (with the scope, or with the provider for a
Singleton) and stored nothing after it. -/
theorem scope_error_state {fuel id : Nat} {X : String} {w w' : World} {v : Value} {e : GoError}
    (h : ServiceScope.GetServiceOr fuel id X w = some (.ok v (some e), w')) :
    w' = w ∨ ∃ r d f n res w1,
      (w.services X = some d ∨ IServiceProvider.find w (.scope id) X = some d) ∧
      d.factory = some f ∧ Prog.run n r f w = some (res, w1) ∧ w' = w1.invoked X r := by
  cases fuel with
  | zero => simp [ServiceScope.GetServiceOr] at h
  | succ n =>
    simp only [ServiceScope.GetServiceOr] at h
    cases hd : ServiceScope.find w id X with
    | none =>
      simp only [hd, Option.some.injEq, Prod.mk.injEq] at h
      exact Or.inl h.2.symm
    | some dq =>
      obtain ⟨d, own⟩ := dq
      simp only [hd] at h
      have hfind : IServiceProvider.find w (.scope id) X = some d := by
        simp only [IServiceProvider.find, hd, Option.map_some']
      split at h
      · rcases provider_error_state h with h1 | ⟨d', f, m, res, w1, h1, h2, h3, h4⟩
        · exact Or.inl h1
        · exact Or.inr ⟨.root, d', f, m, res, w1, Or.inl h1, h2, h3, h4⟩
      · cases hf : d.factory with
        | none =>
          simp only [hf] at h
          split at h
          · split at h
            · cases h
            · cases h
          · cases h
        | some g =>
          simp only [hf] at h
          have key : ∀ r0 w0, called X (.scope id) (Prog.run n (.scope id) g w) = some (r0, w0) →
              w' = w0 → w' = w ∨ ∃ r d f n res w1,
                (w.services X = some d ∨ IServiceProvider.find w (.scope id) X = some d) ∧
                d.factory = some f ∧ Prog.run n r f w = some (res, w1) ∧
                w' = w1.invoked X r := by
            intro r0 w0 hc hw
            obtain ⟨w1, hb, rfl⟩ := called_eq_some hc
            exact Or.inr ⟨.scope id, d, g, n, r0, w1, Or.inr hfind, hf, hb, hw⟩
          split at h
          · split at h
            · cases hc : called X (.scope id) (Prog.run n (.scope id) g w) with
              | none => simp only [hc] at h; cases h
              | some out =>
                obtain ⟨r0, w0⟩ := out
                simp only [hc] at h
                cases r0 with
                | panic msg => cases h
                | ok inst err =>
                  cases err with
                  | some e' =>
                    simp only [Option.some.injEq, Prod.mk.injEq] at h
                    exact key _ _ hc h.2.symm
                  | none =>
                    simp only at h
                    split at h
                    · cases h
                    · simp only [Option.some.injEq, Prod.mk.injEq] at h
                      exact key _ _ hc h.2.symm
            · cases h
          · exact key _ _ h rfl

/-! ## A Transient that holds a Scoped instance -/

/-- The resolution through a scope of a Transient whose factory is
`newHolding`, given what the resolution of the held identity does there. -/
theorem scope_call_holding (implements : GoType → GoType → Bool) (B : GoType)
    {n addr id : Nat} {Y : GoType} {XT : String} {w w1 : World} {dT : ServiceDescriptor}
    {own : Bool}
    (hres : ServiceScope.GetServiceOr (n + 1) id Y.Name w =
      some (.ok (.mk (.ptr Y) addr) none, w1))
    (hdT : ServiceScope.find w id XT = some (dT, own))
    (hsT : dT.serv_type = ServiceTypeEnum.Transient)
    (hfT : dT.factory = some (newHolding implements Y B)) :
    ServiceScope.GetServiceOr (n + 4) id XT w =
      some (.ok (.mk (.ptr B) (w1.heap.length + 1)) none,
        ({ w1 with heap := w1.heap ++ [(B, [.mk (.ptr Y) addr])] } : World).invoked XT
          (.scope id)) := by
  have h2 : ServiceScope.GetServiceOr (n + 2) id Y.Name w =
      some (.ok (.mk (.ptr Y) addr) none, w1) := scope_mono (Nat.le_succ _) hres
  have hrun : Prog.run (n + 3) (.scope id) (newHolding implements Y B) w =
      some (.ok (.mk (.ptr B) (w1.heap.length + 1)) none,
        { w1 with heap := w1.heap ++ [(B, [.mk (.ptr Y) addr])] }) := by
    simp [newHolding, Prog.GetServiceT, Prog.GetServiceOrT, Prog.run, GetTypeOf, h2, typedResult,
      typeAssertion, GoType.isPointer]
  have h0 : dT.serv_type ≠ ServiceTypeEnum.Singleton := by rw [hsT]; decide
  have h1 : dT.serv_type ≠ ServiceTypeEnum.Scoped := by rw [hsT]; decide
  simp only [ServiceScope.GetServiceOr, hdT, if_neg h0, if_neg h1, hfT, hrun, called,
    Option.map_some']

theorem heap_at_first {α : Type} (l : List α) (a b : α) :
    (l ++ [a] ++ [b])[l.length]? = some a := by
  rw [List.append_assoc, List.getElem?_append_right (le_refl _)]
  simp

theorem heap_at_second {α : Type} (l : List α) (a b : α) :
    (l ++ [a] ++ [b])[l.length + 1]? = some b := by
  rw [List.append_assoc, List.getElem?_append_right (Nat.le_succ _)]
  simp

/-! ## Singleton -/

/-- C1. Singleton identity stability.  `X` is registered as Singleton and not
yet constructed, and its factory, called in the state `w`, returns a pointer
`inst` and no error, leaving the state `w1`.  Then the first
`ServiceProvider.GetServiceOr(X)` returns `inst`, and so does each of `N ≥ 2`
calls in a row, none with an error.  The state after the `N` calls is the state
after the first: `w1`, with `inst` stored and the one call of the factory
recorded.  The calls after the first run no factory. -/
theorem singleton_identity_stability (fuel N : Nat) (X : String) (w w1 : World)
    (d : ServiceDescriptor) (f : Prog) (inst : Value)
    (hd : w.services X = some d) (hs : d.serv_type = ServiceTypeEnum.Singleton)
    (hnil : d.inst = .nil) (hf : d.factory = some f)
    (hrun : Prog.run fuel .root f w = some (.ok inst none, w1)) (hptr : inst.isPointer = true)
    (hN : 2 ≤ N) :
    ServiceProvider.GetServiceOr (fuel + 1) X w =
        some (.ok inst none, (w1.invoked X .root).setProviderInst X inst) ∧
      resolveAll (fuel + 1) .root (List.replicate N X) w =
        some (List.replicate N (.ok inst none), (w1.invoked X .root).setProviderInst X inst) ∧
      ((w1.invoked X .root).setProviderInst X inst).log = w1.log ++ [(X, .root)] := by
  have hfirst := provider_construct hd hs hnil hf hrun hptr
  refine ⟨hfirst, ?_, rfl⟩
  obtain ⟨d1, hd1, -, hs1, -⟩ :=
    ((Prog.run_frame hrun).trans (World.frame_invoked w1 X .root)).services_some hd
  have hd2 : ((w1.invoked X .root).setProviderInst X inst).services X =
      some { d1 with inst := inst } := by
    rw [World.services_setProviderInst, hd1]; rfl
  have hagain : IServiceProvider.GetServiceOr (fuel + 1) .root X
      ((w1.invoked X .root).setProviderInst X inst) =
      some (.ok inst none, (w1.invoked X .root).setProviderInst X inst) :=
    provider_memoized hd2 (hs1.trans hs) (Value.ne_nil_of_isPointer hptr)
  obtain ⟨n, rfl⟩ : ∃ n, N = n + 1 := ⟨N - 1, by omega⟩
  have h1 : IServiceProvider.GetServiceOr (fuel + 1) .root X w =
      some (.ok inst none, (w1.invoked X .root).setProviderInst X inst) := hfirst
  simp only [List.replicate_succ, resolveAll, h1, resolveAll_replicate_fixed hagain n,
    Option.map_some']

/-- C1 at the registry of `Test_Singleton`, three calls in a row: each returns
the object at address 1, built with `Num` 1, and the factory is recorded once. -/
theorem singleton_identity_stability_witness :
    resolveAll 4 .root ["MyService", "MyService", "MyService"] singletonWorld =
        some (List.replicate 3 (.ok (.mk (.ptr tMyService) 1) none),
          ((({ singletonWorld with counter := 1, heap := [(tMyService, [.mk tInt 1])] } :
            World).invoked "MyService" .root).setProviderInst "MyService"
              (.mk (.ptr tMyService) 1))) :=
  (singleton_identity_stability 3 3 "MyService" singletonWorld _ _ newMyService _
    rfl rfl rfl rfl rfl rfl (by decide)).2.1

/-! ## Scoped isolation -/

/-- C2. Scoped isolation fails for an identity registered after the scopes
were created.  In `lateWorld` the scopes 0 and 1 have no descriptor of their
own for `MyService`.  The first `GetServiceOr("MyService")` on scope 0 runs the
factory and stores the instance in the descriptor of the provider; the first
call on scope 1 then returns that same instance and runs no factory. -/
theorem scoped_late_registration_shared :
    ∃ w1, ServiceScope.GetServiceOr 4 0 "MyService" lateWorld =
        some (.ok (.mk (.ptr tMyService) 1) none, w1) ∧
      ServiceScope.GetServiceOr 4 1 "MyService" w1 =
        some (.ok (.mk (.ptr tMyService) 1) none, w1) ∧
      (w1.services "MyService").map (fun d => d.inst) = some (.mk (.ptr tMyService) 1) ∧
      (w1.scopes 0 "MyService").isNone = true ∧ (w1.scopes 1 "MyService").isNone = true ∧
      w1.log = [("MyService", .scope 0)] :=
  ⟨_, rfl, rfl, rfl, rfl, rfl, rfl⟩

/-! ## Scoped stability -/

/-- C3. Scoped stability within one scope.  The scope `id` finds `X` registered
as Scoped and not yet constructed, and the factory, called with the scope as
resolver in the state `w`, returns a pointer `inst` and no error, leaving the
state `w1`.  Then the first `ServiceScope.GetServiceOr(X)` returns `inst`, and
every call after the first, in a row of `N ≥ 2`, returns that same `inst`.  The
state after the `N` calls is the state after the first: `w1`, with `inst`
stored and the one call of the factory, with this scope, recorded.  The calls
after the first run no factory. -/
theorem scoped_stability (fuel N id : Nat) (X : String) (w w1 : World)
    (d : ServiceDescriptor) (own : Bool) (f : Prog) (inst : Value)
    (hd : ServiceScope.find w id X = some (d, own)) (hs : d.serv_type = ServiceTypeEnum.Scoped)
    (hnil : d.inst = .nil) (hf : d.factory = some f)
    (hrun : Prog.run fuel (.scope id) f w = some (.ok inst none, w1))
    (hptr : inst.isPointer = true) (hN : 2 ≤ N) :
    ServiceScope.GetServiceOr (fuel + 1) id X w =
        some (.ok inst none, (w1.invoked X (.scope id)).setFoundInst id own X inst) ∧
      resolveAll (fuel + 1) (.scope id) (List.replicate N X) w =
        some (List.replicate N (.ok inst none),
          (w1.invoked X (.scope id)).setFoundInst id own X inst) ∧
      ((w1.invoked X (.scope id)).setFoundInst id own X inst).log = w1.log ++ [(X, .scope id)] := by
  have hfirst := scope_construct hd hs hnil hf hrun hptr
  refine ⟨hfirst, ?_, ?_⟩
  · obtain ⟨d1, hd1, -, hs1, -⟩ :=
      ((Prog.run_frame hrun).trans (World.frame_invoked w1 X (.scope id))).find_some hd
    have hd2 := ServiceScope.find_setFoundInst hd1 inst
    have hagain : IServiceProvider.GetServiceOr (fuel + 1) (.scope id) X
        ((w1.invoked X (.scope id)).setFoundInst id own X inst) =
        some (.ok inst none, (w1.invoked X (.scope id)).setFoundInst id own X inst) :=
      scope_memoized hd2 (hs1.trans hs) (Value.ne_nil_of_isPointer hptr)
    obtain ⟨n, rfl⟩ : ∃ n, N = n + 1 := ⟨N - 1, by omega⟩
    have h1 : IServiceProvider.GetServiceOr (fuel + 1) (.scope id) X w =
        some (.ok inst none, (w1.invoked X (.scope id)).setFoundInst id own X inst) := hfirst
    simp only [List.replicate_succ, resolveAll, h1, resolveAll_replicate_fixed hagain n,
      Option.map_some']
  · cases own <;> rfl

/-- C3 at the registry of `Test_Scoped`, scope 1 of the test: two calls in a
row return the object at address 1. -/
theorem scoped_stability_witness :
    resolveAll 4 (.scope 0) ["MyService", "MyService"] scopedWorld =
        some ([.ok (.mk (.ptr tMyService) 1) none, .ok (.mk (.ptr tMyService) 1) none],
          ((({ scopedWorld with counter := 1, heap := [(tMyService, [.mk tInt 1])] } :
            World).invoked "MyService" (.scope 0)).setFoundInst 0 true "MyService"
              (.mk (.ptr tMyService) 1))) :=
  (scoped_stability 3 2 0 "MyService" scopedWorld _ _ true newMyService _
    rfl rfl rfl rfl rfl rfl (by decide)).2.1

/-! ## Transient -/

/-- C4. Transient freshness.  The resolver `s` (the provider or a scope) finds
`X` registered as Transient with the factory `f`.  Then `s.GetServiceOr(X)` is
one call of the factory with `s`: it returns the pair the factory returns,
whatever the kind of the instance, and leaves the state the factory leaves,
with that one call recorded and nothing stored.  `N` calls in a row are `N`
calls of the factory in a row. -/
theorem transient_freshness (fuel N : Nat) (s : Resolver) (X : String) (w : World)
    (d : ServiceDescriptor) (f : Prog)
    (hd : IServiceProvider.find w s X = some d)
    (hs : d.serv_type = ServiceTypeEnum.Transient) (hf : d.factory = some f) :
    IServiceProvider.GetServiceOr (fuel + 1) s X w = called X s (Prog.run fuel s f w) ∧
      resolveAll (fuel + 1) s (List.replicate N X) w = callTimes fuel s X f N w := by
  have h0 : d.serv_type ≠ ServiceTypeEnum.Singleton := by rw [hs]; decide
  have h1 : d.serv_type ≠ ServiceTypeEnum.Scoped := by rw [hs]; decide
  have key : ∀ (w : World) (d : ServiceDescriptor), IServiceProvider.find w s X = some d →
      d.serv_type = ServiceTypeEnum.Transient → d.factory = some f →
      IServiceProvider.GetServiceOr (fuel + 1) s X w = called X s (Prog.run fuel s f w) := by
    intro w d hd hs hf
    have h0 : d.serv_type ≠ ServiceTypeEnum.Singleton := by rw [hs]; decide
    have h1 : d.serv_type ≠ ServiceTypeEnum.Scoped := by rw [hs]; decide
    cases s with
    | root =>
      have hd' : w.services X = some d := hd
      simp only [IServiceProvider.GetServiceOr, ServiceProvider.GetServiceOr, hd', if_neg h0,
        if_neg h1, hf]
    | scope id =>
      simp only [IServiceProvider.find, Option.map_eq_some'] at hd
      obtain ⟨⟨d', own⟩, hd', hdd⟩ := hd
      dsimp only at hdd
      subst hdd
      simp only [IServiceProvider.GetServiceOr, ServiceScope.GetServiceOr, hd', if_neg h0,
        if_neg h1, hf]
  refine ⟨key w d hd hs hf, ?_⟩
  induction N generalizing w d with
  | zero => rfl
  | succ n ih =>
    simp only [List.replicate_succ, resolveAll, callTimes, key w d hd hs hf]
    cases hc : called X s (Prog.run fuel s f w) with
    | none => rfl
    | some out =>
      obtain ⟨r, w1⟩ := out
      cases r with
      | panic msg => rfl
      | ok inst err =>
        have hfr : w.Frame w1 := frame_called hc (fun _ _ hb => Prog.run_frame hb)
        have : ∃ d1, IServiceProvider.find w1 s X = some d1 ∧
            d1.serv_type = d.serv_type ∧ d1.factory = d.factory := by
          cases s with
          | root =>
            obtain ⟨d1, hd1, -, h2, h3⟩ := hfr.services_some (show w.services X = some d from hd)
            exact ⟨d1, hd1, h2, h3⟩
          | scope id =>
            simp only [IServiceProvider.find, Option.map_eq_some'] at hd
            obtain ⟨⟨d', own⟩, hd', hdd⟩ := hd
            dsimp only at hdd
            subst hdd
            obtain ⟨d1, hd1, -, h2, h3⟩ := hfr.find_some hd'
            exact ⟨d1, by simp only [IServiceProvider.find, hd1, Option.map_some'], h2, h3⟩
        obtain ⟨d1, hd1, h2, h3⟩ := this
        simp only [ih w1 d1 hd1 (h2.trans hs) (h3.trans hf) (by rw [h2, hs]; decide)
          (by rw [h2, hs]; decide)]

/-- C4 at the registry of `Test_Transient`, through the scope: two calls in a
row return two values, built with `Num` 1 and `Num` 2, the factory is recorded
twice and nothing is stored. -/
theorem transient_freshness_witness :
    resolveAll 3 (.scope 0) ["MyService", "MyService"] transientWorld =
      some ([.ok (.mk tMyService 1) none, .ok (.mk tMyService 2) none],
        { transientWorld with
          counter := 2, log := [("MyService", .scope 0), ("MyService", .scope 0)] }) :=
  (transient_freshness 2 2 (.scope 0) "MyService" transientWorld _ valueMyService
    rfl rfl rfl).2

/-! ## Scoped from the root -/

/-- C5. A Scoped identity resolved from the root provider: a nil instance, the
error "cannot get scoped service 'X' from root", and the state (registry and
record of factory invocations) is the one before the call. -/
theorem scoped_from_root_rejected (fuel : Nat) (X : String) (w : World) (d : ServiceDescriptor)
    (hd : w.services X = some d) (hs : d.serv_type = ServiceTypeEnum.Scoped) :
    ServiceProvider.GetServiceOr (fuel + 1) X w =
      some (.ok .nil (some ⟨"cannot get scoped service '" ++ X ++ "' from root"⟩), w) := by
  have h1 : d.serv_type ≠ ServiceTypeEnum.Singleton := by
    rw [hs]; decide
  simp only [ServiceProvider.GetServiceOr, hd, if_neg h1, if_pos hs]

/-- C5 at the registry of `Test_Error`: `services.GetServiceOr("MyService")`. -/
theorem scoped_from_root_rejected_witness :
    ServiceProvider.GetServiceOr 1 "MyService" errorWorld =
      some (.ok .nil (some ⟨"cannot get scoped service 'MyService' from root"⟩), errorWorld) :=
  scoped_from_root_rejected 0 "MyService" errorWorld _ rfl rfl

/-! ## Unregistered lookups -/

/-- C6. Unregistered lookup.  When the provider's map has no descriptor for
`X`, `ServiceProvider.GetServiceOr(X)` returns a nil instance and the error
"the service 'X' not found"; so does `ServiceScope.GetServiceOr(X)` on every
scope whose own map has none either.  In both cases the state (maps, memoized
instances, record of factory invocations) is the one before the call. -/
theorem unregistered_lookup (fuel : Nat) (X : String) (w : World) (hp : w.services X = none) :
    ServiceProvider.GetServiceOr (fuel + 1) X w =
        some (.ok .nil (some ⟨"the service '" ++ X ++ "' not found"⟩), w) ∧
      ∀ id, w.scopes id X = none →
        ServiceScope.GetServiceOr (fuel + 1) id X w =
          some (.ok .nil (some ⟨"the service '" ++ X ++ "' not found"⟩), w) := by
  refine ⟨?_, fun id hsc => ?_⟩
  · simp only [ServiceProvider.GetServiceOr, hp]
  · simp only [ServiceScope.GetServiceOr, ServiceScope.find, hsc, hp]

/-- C6 at the registry of `Test_Error`: `MyService3` from the root and from a
scope. -/
theorem unregistered_lookup_witness :
    ServiceProvider.GetServiceOr 1 "MyService3" scopedWorld =
        some (.ok .nil (some ⟨"the service 'MyService3' not found"⟩), scopedWorld) ∧
      ServiceScope.GetServiceOr 1 0 "MyService3" scopedWorld =
        some (.ok .nil (some ⟨"the service 'MyService3' not found"⟩), scopedWorld) :=
  ⟨(unregistered_lookup 0 "MyService3" scopedWorld rfl).1,
    (unregistered_lookup 0 "MyService3" scopedWorld rfl).2 0 rfl⟩

/-! ## A Singleton that depends on a Singleton -/

/-- C7. Transitive singleton dependency.  `A` and `B` are Singletons, not yet
constructed; the factory of `B` is `return &B{Obj: GetService[*A](s)}, nil`;
the factory of `A`, called in the state `w`, returns a pointer `a` to an `A`,
and does not itself construct `B`.  Then resolving `A` then `B`, or `B` then
`A`, from the root or through a scope that has neither of its own, returns `a`
for `A` and the same pointer `b` for `B`, and ends in the same state `wf`, in
which `b` points to a `B` whose field is `a`.  The record of `wf` is that of
the one run of the factory of `A`, followed by one call of the factory of `A`
and one of the factory of `B`, both with the provider as resolver. -/
theorem transitive_singleton (implements : GoType → GoType → Bool) (fuel id addr : Nat)
    (A B : GoType) (XB : String) (w w1 : World) (dA dB : ServiceDescriptor) (fA : Prog)
    (hne : XB ≠ A.Name)
    (hdA : w.services A.Name = some dA) (hsA : dA.serv_type = ServiceTypeEnum.Singleton)
    (hnA : dA.inst = .nil) (hfA : dA.factory = some fA)
    (hdB : w.services XB = some dB) (hsB : dB.serv_type = ServiceTypeEnum.Singleton)
    (hnB : dB.inst = .nil) (hfB : dB.factory = some (newHolding implements A B))
    (hownA : w.scopes id A.Name = none) (hownB : w.scopes id XB = none)
    (hrun : Prog.run fuel .root fA w = some (.ok (.mk (.ptr A) addr) none, w1))
    (hB1 : ∀ d, w1.services XB = some d → d.inst = .nil) :
    ∃ b wf,
      resolveAll (fuel + 5) .root [A.Name, XB] w =
        some ([.ok (.mk (.ptr A) addr) none, .ok b none], wf) ∧
      resolveAll (fuel + 5) .root [XB, A.Name] w =
        some ([.ok b none, .ok (.mk (.ptr A) addr) none], wf) ∧
      resolveAll (fuel + 5) (.scope id) [A.Name, XB] w =
        some ([.ok (.mk (.ptr A) addr) none, .ok b none], wf) ∧
      resolveAll (fuel + 5) (.scope id) [XB, A.Name] w =
        some ([.ok b none, .ok (.mk (.ptr A) addr) none], wf) ∧
      wf.deref b = some (B, [.mk (.ptr A) addr]) ∧
      wf.log = w1.log ++ [(A.Name, .root), (XB, .root)] := by
  -- the state `wA` after the construction of `A`
  obtain ⟨wA, hwA⟩ : ∃ wA, wA = (w1.invoked A.Name .root).setProviderInst A.Name
      (.mk (.ptr A) addr) := ⟨_, rfl⟩
  have hpA : ServiceProvider.GetServiceOr (fuel + 1) A.Name w =
      some (.ok (.mk (.ptr A) addr) none, wA) :=
    hwA ▸ provider_construct hdA hsA hnA hfA hrun rfl
  have hfr1 : w.Frame (w1.invoked A.Name .root) :=
    (Prog.run_frame hrun).trans (World.frame_invoked _ _ _)
  have hfrA : w.Frame wA := hwA ▸ hfr1.trans (World.frame_setProviderInst _ _ _)
  obtain ⟨dA1, hdA1, -, hsA1, -⟩ := hfr1.services_some hdA
  have hdAA : wA.services A.Name = some { dA1 with inst := .mk (.ptr A) addr } := by
    rw [hwA, World.services_setProviderInst, hdA1]; rfl
  have hheap : wA.heap = w1.heap := by rw [hwA]; rfl
  have hlog : wA.log = w1.log ++ [(A.Name, .root)] := by rw [hwA]; rfl
  -- `B` in that state
  obtain ⟨dB1, hdB1, -, hsB1, hfB1⟩ := (Prog.run_frame hrun).services_some hdB
  have hdBA : wA.services XB = some dB1 := by
    rw [hwA, World.services_setProviderInst_of_ne _ hne]; exact hdB1
  -- the final state `wf`
  obtain ⟨wf, hwf⟩ : ∃ wf, wf = (({ wA with heap := wA.heap ++ [(B, [.mk (.ptr A) addr])] } :
      World).invoked XB .root).setProviderInst XB (.mk (.ptr B) (wA.heap.length + 1)) := ⟨_, rfl⟩
  have hpBA : ServiceProvider.GetServiceOr (0 + 4) XB wA =
      some (.ok (.mk (.ptr B) (wA.heap.length + 1)) none, wf) :=
    hwf ▸ provider_construct_holding implements B
      (@provider_memoized 0 _ _ _ hdAA (hsA1.trans hsA) (by simp)) hdBA
      (hsB1.trans hsB) (hB1 dB1 hdB1) (hfB1.trans hfB)
  have hpB : ServiceProvider.GetServiceOr (fuel + 4) XB w =
      some (.ok (.mk (.ptr B) (wA.heap.length + 1)) none, wf) :=
    hwf ▸ provider_construct_holding implements B hpA hdB hsB hnB hfB
  have hfrf : w.Frame wf := (frame_all _).1 _ _ _ _ hpB
  have hdAf : wf.services A.Name = some { dA1 with inst := .mk (.ptr A) addr } := by
    rw [hwf, World.services_setProviderInst_of_ne _ (Ne.symm hne)]; exact hdAA
  have hpAf : ServiceProvider.GetServiceOr (fuel + 3 + 1) A.Name wf =
      some (.ok (.mk (.ptr A) addr) none, wf) :=
    provider_memoized hdAf (hsA1.trans hsA) (by simp)
  -- everything with the same fuel
  have PA := provider_mono (show fuel + 1 ≤ fuel + 4 by omega) hpA
  have PBA := provider_mono (show 0 + 4 ≤ fuel + 4 by omega) hpBA
  have QA := provider_mono (Nat.le_succ (fuel + 4)) PA
  have QBA := provider_mono (Nat.le_succ (fuel + 4)) PBA
  have QB := provider_mono (Nat.le_succ (fuel + 4)) hpB
  have QAf := provider_mono (Nat.le_succ (fuel + 4)) hpAf
  have SA := (scope_delegates hownA hdA hsA (fuel + 4)).trans PA
  have SBA := (scope_delegates (hfrA.scopes_none hownB) hdBA (hsB1.trans hsB) (fuel + 4)).trans PBA
  have SB := (scope_delegates hownB hdB hsB (fuel + 4)).trans hpB
  have SAf := (scope_delegates (hfrf.scopes_none hownA) hdAf (hsA1.trans hsA) (fuel + 4)).trans
    hpAf
  refine ⟨.mk (.ptr B) (wA.heap.length + 1), wf, ?_, ?_, ?_, ?_, ?_, ?_⟩
  · simp only [resolveAll, IServiceProvider.GetServiceOr, QA, QBA, Option.map_some']
  · simp only [resolveAll, IServiceProvider.GetServiceOr, QB, QAf, Option.map_some']
  · simp only [resolveAll, IServiceProvider.GetServiceOr, SA, SBA, Option.map_some']
  · simp only [resolveAll, IServiceProvider.GetServiceOr, SB, SAf, Option.map_some']
  · rw [hwf]
    simp [World.deref, World.setProviderInst, World.invoked]
  · rw [hwf]
    simp [World.setProviderInst, World.invoked, hlog]

/-- C7 at the registry of `Test_Injection`: `MyService` is the object at
address 1 in both orders, from the root and through the scope. -/
theorem transitive_singleton_witness :
    ∃ b wf,
      resolveAll 8 .root ["MyService", "MyService2"] injectionWorld =
        some ([.ok (.mk (.ptr tMyService) 1) none, .ok b none], wf) ∧
      resolveAll 8 .root ["MyService2", "MyService"] injectionWorld =
        some ([.ok b none, .ok (.mk (.ptr tMyService) 1) none], wf) ∧
      resolveAll 8 (.scope 0) ["MyService", "MyService2"] injectionWorld =
        some ([.ok (.mk (.ptr tMyService) 1) none, .ok b none], wf) ∧
      resolveAll 8 (.scope 0) ["MyService2", "MyService"] injectionWorld =
        some ([.ok b none, .ok (.mk (.ptr tMyService) 1) none], wf) ∧
      wf.deref b = some (tMyService2, [.mk (.ptr tMyService) 1]) ∧
      wf.log = [("MyService", .root), ("MyService2", .root)] :=
  transitive_singleton implementsNothing 3 0 1 tMyService tMyService2 "MyService2"
    injectionWorld _ _ _ newMyService (by decide) rfl rfl rfl rfl rfl rfl rfl rfl rfl rfl rfl
    (fun _ h => Option.some.inj h ▸ rfl)

/-! ## Delegation of Singletons -/

/-- C8. Singleton delegation from a scope.  `X` is registered as Singleton in
the provider and the scope's own map has no `X`.  Then
`ServiceScope.GetServiceOr(X)` is the call `ServiceProvider.GetServiceOr(X)` on
the owning provider: the two return the same result and leave the same state,
and one returns exactly when the other does. -/
theorem singleton_delegation (id : Nat) (X : String) (w : World) (d : ServiceDescriptor)
    (hown : w.scopes id X = none) (hd : w.services X = some d)
    (hs : d.serv_type = ServiceTypeEnum.Singleton) :
    (∀ fuel, ServiceScope.GetServiceOr (fuel + 1) id X w = ServiceProvider.GetServiceOr fuel X w) ∧
      ∀ x, (∃ fuel, ServiceScope.GetServiceOr fuel id X w = some x) ↔
        (∃ fuel, ServiceProvider.GetServiceOr fuel X w = some x) := by
  have h1 : ∀ fuel, ServiceScope.GetServiceOr (fuel + 1) id X w =
      ServiceProvider.GetServiceOr fuel X w := scope_delegates hown hd hs
  refine ⟨h1, fun x => ⟨?_, ?_⟩⟩
  · rintro ⟨fuel, h⟩
    cases fuel with
    | zero => simp [ServiceScope.GetServiceOr] at h
    | succ n => exact ⟨n, (h1 n).symm.trans h⟩
  · rintro ⟨fuel, h⟩
    exact ⟨fuel + 1, (h1 fuel).trans h⟩

/-- C8 at the registry of `Test_Singleton` with a scope: `MyService` through
the scope is `MyService` from the provider. -/
theorem singleton_delegation_witness :
    ServiceScope.GetServiceOr 5 0 "MyService" singletonScopeWorld =
      ServiceProvider.GetServiceOr 4 "MyService" singletonScopeWorld :=
  (singleton_delegation 0 "MyService" singletonScopeWorld _ rfl rfl rfl).1 4

/-! ## Reference required -/

/-- C9. Reference required.  The resolver `s` finds `X` registered with the
lifetime it memoizes (Singleton for the provider, Scoped for a scope) and not
yet constructed, and the factory `f`, called with `s` in the state `w`, returns
no error and the value `v`, which is not a pointer, leaving the state `w1`.
Then `s.GetServiceOr(X)` returns a nil instance and the error "the singleton
service 'X' must be a pointer ..." (for a scope: "the scoped service ..."), and
nothing is stored after the factory returns: the state is `w1` with the call
recorded.  So `X` still has the descriptor it had, without an instance, and the
next resolution calls the factory again, when the factory has not resolved `X`
itself while it ran. -/
theorem reference_required (fuel : Nat) (s : Resolver) (X : String) (w w1 : World)
    (d : ServiceDescriptor) (f : Prog) (v : Value)
    (hd : IServiceProvider.find w s X = some d) (hs : d.serv_type = s.memoizes)
    (hnil : d.inst = .nil) (hf : d.factory = some f)
    (hrun : Prog.run fuel s f w = some (.ok v none, w1)) (hv : v.isPointer = false) :
    IServiceProvider.GetServiceOr (fuel + 1) s X w =
        some (.ok .nil (some ⟨(match s with
            | .root => "the singleton service '"
            | .scope _ => "the scoped service '") ++ X ++
          "' must be a pointer (the factory must return &" ++ X ++ "\x7b\x7d)"⟩),
          w1.invoked X s) ∧
      (∀ evs, w1.log = w.log ++ evs → (∀ r, (X, r) ∉ evs) →
        IServiceProvider.find (w1.invoked X s) s X = some d) := by
  refine ⟨?_, ?_⟩
  · cases s with
    | root =>
      have hd' : w.services X = some d := hd
      have hs' : d.serv_type = ServiceTypeEnum.Singleton := hs
      simp only [IServiceProvider.GetServiceOr, ServiceProvider.GetServiceOr, hd', hs', hnil, hf,
        hrun, called, Option.map_some', hv, Bool.false_eq_true, if_true, if_false]
    | scope id =>
      simp only [IServiceProvider.find, Option.map_eq_some'] at hd
      obtain ⟨⟨d0, own⟩, hd', hdd⟩ := hd
      dsimp only at hdd
      subst hdd
      have hs' : d0.serv_type = ServiceTypeEnum.Scoped := hs
      have h0 : d0.serv_type ≠ ServiceTypeEnum.Singleton := by rw [hs']; decide
      simp only [IServiceProvider.GetServiceOr, ServiceScope.GetServiceOr, hd', if_neg h0,
        if_pos hs', hnil, hf, hrun, called, Option.map_some', hv, Bool.false_eq_true, if_true,
        if_false]
  · intro evs hlog hquiet
    obtain ⟨evs', hlog', hsame⟩ := Prog.run_grown hrun
    have hevs : evs' = evs := List.append_cancel_left (hlog'.symm.trans hlog)
    subst hevs
    obtain ⟨h1, h2⟩ := hsame X hquiet
    cases s with
    | root => exact h1.trans hd
    | scope id =>
      have : ServiceScope.find (w1.invoked X (.scope id)) id X = ServiceScope.find w id X := by
        have h2' := h2 id
        simp only [ServiceScope.find, World.invoked, h1, h2']
      simpa only [IServiceProvider.find, this] using hd

/-- C9 at the registry of `Test_Error`, `MyService2` through the scope: the
factory constructs `MyService` in the scope and returns a plain `MyService2`;
the call returns the error and `MyService2` keeps its descriptor, without an
instance.  And at `aliasWorld`, `MyService2` from the provider: the factory
returns the plain `MyService` that the provider hands it. -/
theorem reference_required_witness :
    (IServiceProvider.GetServiceOr 6 (.scope 0) "MyService2" errorScopeWorld =
        some (.ok .nil (some ⟨"the scoped service 'MyService2' must be a pointer " ++
            "(the factory must return &MyService2\x7b\x7d)"⟩),
          errorScopeWorld1.invoked "MyService2" (.scope 0)) ∧
      IServiceProvider.find (errorScopeWorld1.invoked "MyService2" (.scope 0)) (.scope 0)
          "MyService2" =
        some { inst_type := tMyService2, serv_type := ServiceTypeEnum.Scoped,
               factory := some valueMyService2 }) ∧
    (IServiceProvider.GetServiceOr 5 .root "MyService2" aliasWorld =
        some (.ok .nil (some ⟨"the singleton service 'MyService2' must be a pointer " ++
            "(the factory must return &MyService2\x7b\x7d)"⟩),
          (({ aliasWorld with counter := 1 } : World).invoked "MyService" .root).invoked
            "MyService2" .root) ∧
      IServiceProvider.find
          ((({ aliasWorld with counter := 1 } : World).invoked "MyService" .root).invoked
            "MyService2" .root) .root "MyService2" =
        some { inst_type := tMyService2, serv_type := ServiceTypeEnum.Singleton,
               factory := some aliasingMyService2 }) :=
  ⟨⟨(reference_required 5 (.scope 0) "MyService2" errorScopeWorld errorScopeWorld1 _
        valueMyService2 (.mk tMyService2 1) rfl rfl rfl rfl rfl rfl).1,
      (reference_required 5 (.scope 0) "MyService2" errorScopeWorld errorScopeWorld1 _
        valueMyService2 (.mk tMyService2 1) rfl rfl rfl rfl rfl rfl).2
        [("MyService", .scope 0)] rfl (fun _ h => by simp at h)⟩,
    ⟨(reference_required 4 .root "MyService2" aliasWorld
        (({ aliasWorld with counter := 1 } : World).invoked "MyService" .root) _
        aliasingMyService2 (.mk tMyService 1) rfl rfl rfl rfl rfl rfl).1,
      (reference_required 4 .root "MyService2" aliasWorld
        (({ aliasWorld with counter := 1 } : World).invoked "MyService" .root) _
        aliasingMyService2 (.mk tMyService 1) rfl rfl rfl rfl rfl rfl).2
        [("MyService", .root)] rfl (fun _ h => by simp at h)⟩⟩

/-! ## The generic accessor -/

/-- C10, as stated, fails.  In the registry of `Test_Transient` the untyped
`GetServiceOr("MyService")` succeeds with a plain `MyService` value, which is
not the case of a pointer instance with a non-pointer `T`; yet
`GetServiceOr[*MyService]` does not return: its type assertion panics. -/
theorem typed_accessor_conversion_panics :
    IServiceProvider.GetServiceOr 3 .root (GetTypeOf (.ptr tMyService)).Name transientWorld =
        some (.ok (.mk tMyService 1) none,
          ({ transientWorld with counter := 1 } : World).invoked "MyService" .root) ∧
      (Value.mk tMyService 1).isPointer = false ∧
      GetServiceOr implementsNothing (.ptr tMyService) 3 .root transientWorld =
        some (.panic interfaceConversion,
          ({ transientWorld with counter := 1 } : World).invoked "MyService" .root) ∧
      GetServiceOr implementsNothing (.ptr tMyService) 3 .root transientWorld ≠
        some (.ok (.mk tMyService 1) none,
          ({ transientWorld with counter := 1 } : World).invoked "MyService" .root) := by
  refine ⟨rfl, rfl, rfl, ?_⟩
  intro h
  have h2 : GetServiceOr implementsNothing (.ptr tMyService) 3 .root transientWorld =
      some (.panic interfaceConversion,
        ({ transientWorld with counter := 1 } : World).invoked "MyService" .root) := rfl
  rw [h2] at h
  cases h

/-- C10, amended.  The untyped `s.GetServiceOr` under the name of `T` succeeds
with `result`.  If `result` is a pointer and `T` is a named type that is not an
interface, `GetServiceOr[T]` returns the zero value of `T` and an error.  If
`result` is not a pointer or `T` is a pointer type, and the type assertion
`result.(T)` holds (the dynamic type of `result` is `T`, or implements the
interface `T`), `GetServiceOr[T]` returns `result` and no error. -/
theorem typed_accessor_check (implements : GoType → GoType → Bool) (T : GoType) (fuel : Nat)
    (s : Resolver) (w w1 : World) (result : Value)
    (h : IServiceProvider.GetServiceOr fuel s (GetTypeOf T).Name w = some (.ok result none, w1)) :
    (result.isPointer = true → (∃ n, T = .named n false) →
        GetServiceOr implements T fuel s w =
          some (.ok (zeroValue T) (some ⟨"cannot get an instance of the service '" ++
            (GetTypeOf T).Name ++ "', use pointer instead"⟩), w1) ∧
          zeroValue T = .mk T 0) ∧
      (¬ (result.isPointer = true ∧ T.isPointer = false) →
        typeAssertion implements T result = some result →
          GetServiceOr implements T fuel s w = some (.ok result none, w1)) := by
  constructor
  · rintro hp ⟨n, rfl⟩
    cases result with
    | nil => cases hp
    | mk ty data =>
      have hc : ty.isPointer = true ∧ ¬ (GoType.named n false).isPointer = true :=
        ⟨hp, by simp [GoType.isPointer]⟩
      simp only [GetServiceOr, h, typedResult, hc, if_true, and_self]
      exact ⟨rfl, rfl⟩
  · intro hnot hassert
    cases result with
    | nil => simp [typeAssertion] at hassert
    | mk ty data =>
      have hc : ¬ (ty.isPointer = true ∧ ¬ T.isPointer = true) := by
        rintro ⟨h1, h2⟩
        exact hnot ⟨h1, by simpa using h2⟩
      simp only [GetServiceOr, h, typedResult, hc, if_false, hassert]

/-- C10, amended, at the registries of the tests.  In `Test_Error`,
`GetServiceOr[MyService](scope)` finds a pointer and returns the zero
`MyService` and an error.  In `Test_Transient`, `GetServiceOr[MyService]`
returns the plain value the factory built. -/
theorem typed_accessor_check_witness :
    GetServiceOr implementsNothing tMyService 4 (.scope 0) errorScopeWorld =
        some (.ok (.mk tMyService 0) (some ⟨"cannot get an instance of the service " ++
          "'MyService', use pointer instead"⟩),
          (({ errorScopeWorld with counter := 1, heap := [(tMyService, [.mk tInt 1])] } :
            World).invoked "MyService" (.scope 0)).setScopeInst 0 "MyService"
              (.mk (.ptr tMyService) 1)) ∧
      GetServiceOr implementsNothing tMyService 3 .root transientWorld =
        some (.ok (.mk tMyService 1) none,
          ({ transientWorld with counter := 1 } : World).invoked "MyService" .root) :=
  ⟨((typed_accessor_check implementsNothing tMyService 4 (.scope 0) errorScopeWorld _
      (.mk (.ptr tMyService) 1) rfl).1 rfl ⟨_, rfl⟩).1,
    (typed_accessor_check implementsNothing tMyService 3 .root transientWorld _ _ rfl).2
      (by decide) rfl⟩

/-! ## Interfaces -/

/-- C11. Interface retrieval fails in `Test_Interfaces`.  `IMyService` is
registered as Singleton with a factory that returns a `*MyService2`, which
implements it.  `GetServiceOr[IMyService](services)` constructs the instance
and then returns the "use pointer instead" error, because the kind of
`IMyService` is not pointer; `GetService[IMyService](services)` panics with
that text instead of returning the instance. -/
theorem interface_retrieval_fails :
    ∃ w1, ServiceProvider.GetServiceOr 4 "IMyService" interfacesWorld =
        some (.ok (.mk (.ptr tMyService2) 2) none, w1) ∧
      implementsTests (.ptr tMyService2) tIMyService = true ∧
      GetServiceOr implementsTests tIMyService 4 .root interfacesWorld =
        some (.ok .nil (some ⟨"cannot get an instance of the service 'IMyService', " ++
          "use pointer instead"⟩), w1) ∧
      GetService implementsTests tIMyService 4 .root interfacesWorld =
        some (.panic ("cannot get an instance of the service 'IMyService', " ++
          "use pointer instead"), w1) :=
  ⟨_, rfl, rfl, rfl, rfl⟩

/-! ## RegisterInst -/

/-- C12. `RegisterInst`.  The call panics exactly when the instance is not a
pointer, and then the state is the one before the call.  Otherwise it stores,
under the name of the type, a Singleton descriptor that holds the instance;
and in every state reached later by resolutions and scope creations,
`GetServiceOr` of that name on the provider, and on every scope that has no
descriptor of its own under the name, returns the instance and leaves the state
(the record of factory calls included) as it was. -/
theorem registerInst_contract (inst_type : GoType) (inst : Value) (w : World) :
    ((ServiceProvider.RegisterInst inst_type inst w).1.isSome = true ↔ inst.isPointer = false) ∧
    (inst.isPointer = false → (ServiceProvider.RegisterInst inst_type inst w).2 = w) ∧
    (inst.isPointer = true →
      (ServiceProvider.RegisterInst inst_type inst w).2.services inst_type.Name =
          some { inst_type := inst_type, serv_type := ServiceTypeEnum.Singleton, inst := inst,
                 factory := none } ∧
        ∀ w1, (ServiceProvider.RegisterInst inst_type inst w).2.Later w1 → ∀ fuel,
          ServiceProvider.GetServiceOr (fuel + 1) inst_type.Name w1 = some (.ok inst none, w1) ∧
          ∀ id, w1.scopes id inst_type.Name = none →
            ServiceScope.GetServiceOr (fuel + 2) id inst_type.Name w1 =
              some (.ok inst none, w1)) := by
  refine ⟨?_, ?_, ?_⟩
  · unfold ServiceProvider.RegisterInst
    cases inst.isPointer <;> simp
  · intro h
    simp only [ServiceProvider.RegisterInst, h, if_true]
  · intro h
    have hstore : (ServiceProvider.RegisterInst inst_type inst w).2.services inst_type.Name =
        some { inst_type := inst_type, serv_type := ServiceTypeEnum.Singleton, inst := inst,
               factory := none } := by
      simp only [ServiceProvider.RegisterInst, h, Bool.true_eq_false, if_false, if_true]
    refine ⟨hstore, fun w1 hlater fuel => ?_⟩
    have hk : w1.services inst_type.Name =
        some { inst_type := inst_type, serv_type := ServiceTypeEnum.Singleton, inst := inst,
               factory := none } :=
      hlater.kept rfl (Value.ne_nil_of_isPointer h) hstore
    have hp := @provider_memoized fuel _ _ _ hk rfl (Value.ne_nil_of_isPointer h)
    refine ⟨hp, fun id hown => ?_⟩
    rw [scope_delegates hown hk rfl (fuel + 1)]
    exact @provider_memoized (fuel + 0) _ _ _ hk rfl (Value.ne_nil_of_isPointer h)

/-- C12 at a provider with an instance of `MyService` registered and a scope
created afterwards: the provider and the scope return the instance, and
nothing is recorded. -/
theorem registerInst_contract_witness :
    ServiceProvider.GetServiceOr 1 "MyService" instanceWorld =
        some (.ok (.mk (.ptr tMyService) 1) none, instanceWorld) ∧
      ServiceScope.GetServiceOr 2 0 "MyService" instanceWorld =
        some (.ok (.mk (.ptr tMyService) 1) none, instanceWorld) ∧
      instanceWorld.log = [] :=
  ⟨(((registerInst_contract tMyService (.mk (.ptr tMyService) 1) NewServiceProvider).2.2 rfl).2
      instanceWorld (World.Later.createScope (World.Later.refl _)) 0).1,
    (((registerInst_contract tMyService (.mk (.ptr tMyService) 1) NewServiceProvider).2.2 rfl).2
      instanceWorld (World.Later.createScope (World.Later.refl _)) 0).2 0 rfl,
    rfl⟩

/-! ## Factories that fail -/

/-- C13. Factory failure propagation.  The resolver `s` finds `X` registered
with the factory `f`, and `f`, called with `s` in the state `w`, returns the
error `e`, leaving the state `w1`.  If `X` has the lifetime that `s` memoizes
(Singleton for the provider, Scoped for a scope) and is not yet constructed,
`s.GetServiceOr(X)` returns a nil instance and `e` itself, and so does the call
through a scope that hands a Singleton to the provider; nothing is stored after
the factory returns, so `X` still has the descriptor it had, without an
instance, when the factory has not resolved `X` itself while it ran.  If `X` is
Transient, `s.GetServiceOr(X)` returns what the factory returned, with `e`
itself. -/
theorem factory_failure_propagates (fuel : Nat) (s : Resolver) (X : String) (w w1 : World)
    (d : ServiceDescriptor) (f : Prog) (v : Value) (e : GoError)
    (hd : IServiceProvider.find w s X = some d) (hf : d.factory = some f)
    (hrun : Prog.run fuel s f w = some (.ok v (some e), w1)) :
    (d.serv_type = s.memoizes → d.inst = .nil →
      IServiceProvider.GetServiceOr (fuel + 1) s X w =
          some (.ok .nil (some e), w1.invoked X s) ∧
        (∀ id, s = .root → w.scopes id X = none →
          ServiceScope.GetServiceOr (fuel + 2) id X w =
            some (.ok .nil (some e), w1.invoked X .root)) ∧
        (∀ evs, w1.log = w.log ++ evs → (∀ r, (X, r) ∉ evs) →
          IServiceProvider.find (w1.invoked X s) s X = some d)) ∧
    (d.serv_type = ServiceTypeEnum.Transient →
      IServiceProvider.GetServiceOr (fuel + 1) s X w =
        some (.ok v (some e), w1.invoked X s)) := by
  have hcall : d.serv_type = s.memoizes → d.inst = .nil →
      IServiceProvider.GetServiceOr (fuel + 1) s X w =
        some (.ok .nil (some e), w1.invoked X s) := by
    intro hs hnil
    cases s with
    | root =>
      have hd' : w.services X = some d := hd
      have hs' : d.serv_type = ServiceTypeEnum.Singleton := hs
      simp only [IServiceProvider.GetServiceOr, ServiceProvider.GetServiceOr, hd', hs', hnil, hf,
        hrun, called, Option.map_some', if_true]
    | scope id =>
      simp only [IServiceProvider.find, Option.map_eq_some'] at hd
      obtain ⟨⟨d0, own⟩, hd', hdd⟩ := hd
      dsimp only at hdd
      subst hdd
      have hs' : d0.serv_type = ServiceTypeEnum.Scoped := hs
      have h0 : d0.serv_type ≠ ServiceTypeEnum.Singleton := by rw [hs']; decide
      simp only [IServiceProvider.GetServiceOr, ServiceScope.GetServiceOr, hd', if_neg h0,
        if_pos hs', hnil, hf, hrun, called, Option.map_some', if_true]
  refine ⟨fun hs hnil => ⟨hcall hs hnil, ?_, ?_⟩, ?_⟩
  · rintro id rfl hown
    have hd' : w.services X = some d := hd
    rw [scope_delegates hown hd' hs (fuel + 1)]
    exact hcall hs hnil
  · intro evs hlog hquiet
    obtain ⟨evs', hlog', hsame⟩ := Prog.run_grown hrun
    have hevs : evs' = evs := List.append_cancel_left (hlog'.symm.trans hlog)
    subst hevs
    obtain ⟨h1, h2⟩ := hsame X hquiet
    cases s with
    | root => exact h1.trans hd
    | scope id =>
      have : ServiceScope.find (w1.invoked X (.scope id)) id X = ServiceScope.find w id X := by
        have h2' := h2 id
        simp only [ServiceScope.find, World.invoked, h1, h2']
      simpa only [IServiceProvider.find, this] using hd
  · intro hs
    have h0 : d.serv_type ≠ ServiceTypeEnum.Singleton := by rw [hs]; decide
    have h1 : d.serv_type ≠ ServiceTypeEnum.Scoped := by rw [hs]; decide
    cases s with
    | root =>
      have hd' : w.services X = some d := hd
      simp only [IServiceProvider.GetServiceOr, ServiceProvider.GetServiceOr, hd', if_neg h0,
        if_neg h1, hf, hrun, called, Option.map_some']
    | scope id =>
      simp only [IServiceProvider.find, Option.map_eq_some'] at hd
      obtain ⟨⟨d0, own⟩, hd', hdd⟩ := hd
      dsimp only at hdd
      subst hdd
      simp only [IServiceProvider.GetServiceOr, ServiceScope.GetServiceOr, hd', if_neg h0,
        if_neg h1, hf, hrun, called, Option.map_some']

/-- C13 at `failureWorld`: `MyService2` from the provider and through the scope
returns the error of the factory, and `MyService2` stays unconstructed. -/
theorem factory_failure_propagates_witness :
    ServiceProvider.GetServiceOr 6 "MyService2" failureWorld =
        some (.ok .nil (some ⟨"no MyService2"⟩), failureWorld1.invoked "MyService2" .root) ∧
      ServiceScope.GetServiceOr 7 0 "MyService2" failureWorld =
        some (.ok .nil (some ⟨"no MyService2"⟩), failureWorld1.invoked "MyService2" .root) ∧
      ((failureWorld1.invoked "MyService2" .root).services "MyService2").map
        (fun d => d.inst) = some .nil :=
  ⟨((factory_failure_propagates 5 .root "MyService2" failureWorld failureWorld1 _
      failingMyService2 .nil ⟨"no MyService2"⟩ rfl rfl rfl).1 rfl rfl).1,
    ((factory_failure_propagates 5 .root "MyService2" failureWorld failureWorld1 _
      failingMyService2 .nil ⟨"no MyService2"⟩ rfl rfl rfl).1 rfl rfl).2.1 0 rfl rfl,
    congrArg (Option.map fun d => d.inst)
      (((factory_failure_propagates 5 .root "MyService2" failureWorld failureWorld1 _
        failingMyService2 .nil ⟨"no MyService2"⟩ rfl rfl rfl).1 rfl rfl).2.2
        [("MyService", .root)] rfl (fun _ h => by simp at h))⟩

/-- C14, as stated, fails.  In `failureWorld` the resolution of `MyService2`
returns an error, and the slot of `MyService`, a dependency that the failing
factory resolved, has changed from empty to the object at address 1. -/
theorem failed_resolution_memoizes_dependency :
    ServiceProvider.GetServiceOr 6 "MyService2" failureWorld =
        some (.ok .nil (some ⟨"no MyService2"⟩), failureWorld1.invoked "MyService2" .root) ∧
      (failureWorld.services "MyService").map (fun d => d.inst) = some .nil ∧
      ((failureWorld1.invoked "MyService2" .root).services "MyService").map
        (fun d => d.inst) = some (.mk (.ptr tMyService) 1) :=
  ⟨rfl, rfl, rfl⟩

/-- C14, amended.  If `s.GetServiceOr(X)` returns an error, the state is the
one before the call, or it is the state `w1` that a run of the factory of `X`
left, with that call recorded: the resolution stores nothing after the factory
has returned, and between `w` and `w1` only identities whose factories were
called (the record has an entry for them) can have another descriptor. -/
theorem failed_resolution_state (fuel : Nat) (s : Resolver) (X : String) (w w' : World)
    (v : Value) (e : GoError)
    (h : IServiceProvider.GetServiceOr fuel s X w = some (.ok v (some e), w')) :
    w' = w ∨ ∃ r d f n res w1 evs,
      (w.services X = some d ∨ IServiceProvider.find w s X = some d) ∧ d.factory = some f ∧
      Prog.run n r f w = some (res, w1) ∧ w' = w1.invoked X r ∧ w.Grown w1 evs := by
  cases s with
  | root =>
    rcases provider_error_state h with h1 | ⟨d, f, n, res, w1, h1, h2, h3, h4⟩
    · exact Or.inl h1
    · obtain ⟨evs, he⟩ := Prog.run_grown h3
      exact Or.inr ⟨.root, d, f, n, res, w1, evs, Or.inl h1, h2, h3, h4, he⟩
  | scope id =>
    rcases scope_error_state h with h1 | ⟨r, d, f, n, res, w1, h1, h2, h3, h4⟩
    · exact Or.inl h1
    · obtain ⟨evs, he⟩ := Prog.run_grown h3
      exact Or.inr ⟨r, d, f, n, res, w1, evs, h1, h2, h3, h4, he⟩

/-- C14, amended, at `failureWorld`, `MyService2` through the scope. -/
theorem failed_resolution_state_witness :
    failureWorld1.invoked "MyService2" .root = failureWorld ∨ ∃ r d f n res w1 evs,
      (failureWorld.services "MyService2" = some d ∨
        IServiceProvider.find failureWorld (.scope 0) "MyService2" = some d) ∧
      d.factory = some f ∧ Prog.run n r f failureWorld = some (res, w1) ∧
      failureWorld1.invoked "MyService2" .root = w1.invoked "MyService2" r ∧
      failureWorld.Grown w1 evs :=
  failed_resolution_state 7 (.scope 0) "MyService2" failureWorld _ .nil ⟨"no MyService2"⟩ rfl

/-! ## Panics of the error-returning accessor -/

/-- C15. The generic `GetServiceOr[T]` panics where no factory does.  With a
Transient factory that returns `nil, nil`, the untyped call succeeds with a nil
instance and `GetServiceOr[MyService]` panics on `reflect.TypeOf(nil).Kind()`.
In `Test_Transient`'s registry, through the scope, the untyped call succeeds
with a plain `MyService` and `GetServiceOr[*MyService]` panics on the type
assertion. -/
theorem typed_accessor_panics :
    IServiceProvider.GetServiceOr 2 .root "MyService" nilWorld =
        some (.ok .nil none, nilWorld.invoked "MyService" .root) ∧
      GetServiceOr implementsNothing tMyService 2 .root nilWorld =
        some (.panic nilDereference, nilWorld.invoked "MyService" .root) ∧
      IServiceProvider.GetServiceOr 3 (.scope 0) "MyService" transientWorld =
        some (.ok (.mk tMyService 1) none,
          ({ transientWorld with counter := 1 } : World).invoked "MyService" (.scope 0)) ∧
      GetServiceOr implementsNothing (.ptr tMyService) 3 (.scope 0) transientWorld =
        some (.panic interfaceConversion,
          ({ transientWorld with counter := 1 } : World).invoked "MyService" (.scope 0)) :=
  ⟨rfl, rfl, rfl, rfl⟩

/-! ## The texts of the errors -/

/-- C16. The text of the reference-required error of a scope is not the one
claimed.  In `Test_Error`, after `MyService` is constructed in the scope,
`GetServiceOr[*MyService2](scope)` returns a nil `*MyService2` and an error
whose text ends in "(the factory must return &MyService2{})", without the
words "or interface" that the test expects. -/
theorem scoped_pointer_text_differs :
    ∃ err, GetServiceOr implementsNothing (.ptr tMyService2) 5 (.scope 0) errorScopeWorld1 =
        some (.ok (.mk (.ptr tMyService2) 0) (some err),
          errorScopeWorld1.invoked "MyService2" (.scope 0)) ∧
      err.text = "the scoped service 'MyService2' must be a pointer " ++
        "(the factory must return &MyService2\x7b\x7d)" ∧
      err.text ≠ expectedMustBePointer :=
  ⟨_, rfl, rfl, by decide⟩

/-- C17. The text of the error for a value requested where the instance is a
pointer is not the one claimed.  In `Test_Error`,
`GetServiceOr[MyService](scope)` returns the zero `MyService` and an error
whose text is "cannot get an instance of the service 'MyService', use pointer
instead", not the text that the test expects. -/
theorem value_request_text_differs :
    ∃ err, GetServiceOr implementsNothing tMyService 4 (.scope 0) errorScopeWorld =
        some (.ok (.mk tMyService 0) (some err), errorScopeWorld1) ∧
      err.text = "cannot get an instance of the service 'MyService', use pointer instead" ∧
      err.text ≠ expectedValueOfService :=
  ⟨_, rfl, rfl, by decide⟩

/-! ## CreateScope -/

/-- C18. `CreateScope`.  The own map of the new scope has a descriptor under
exactly the names under which the provider has a Scoped descriptor; each is a
copy with the same type, lifetime and factory and no memoized instance;
Singleton and Transient descriptors are not copied; the provider's map, the
other scopes and the rest of the state are as before the call. -/
theorem createScope_copies_scoped (w : World) :
    (∀ key, ((ServiceProvider.CreateScope w).2.scopes (ServiceProvider.CreateScope w).1
        key).isSome = true ↔
      ∃ d, w.services key = some d ∧ d.serv_type = ServiceTypeEnum.Scoped) ∧
    (∀ key d, w.services key = some d → d.serv_type = ServiceTypeEnum.Scoped →
      (ServiceProvider.CreateScope w).2.scopes (ServiceProvider.CreateScope w).1 key =
        some { inst_type := d.inst_type, serv_type := d.serv_type, inst := .nil,
               factory := d.factory }) ∧
    (∀ key d, w.services key = some d → d.serv_type ≠ ServiceTypeEnum.Scoped →
      (ServiceProvider.CreateScope w).2.scopes (ServiceProvider.CreateScope w).1 key = none) ∧
    (ServiceProvider.CreateScope w).2.services = w.services ∧
    (∀ id, id ≠ (ServiceProvider.CreateScope w).1 →
      (ServiceProvider.CreateScope w).2.scopes id = w.scopes id) ∧
    (ServiceProvider.CreateScope w).2.heap = w.heap ∧
    (ServiceProvider.CreateScope w).2.counter = w.counter ∧
    (ServiceProvider.CreateScope w).2.log = w.log := by
  refine ⟨fun key => ?_, fun key d hd hs => ?_, fun key d hd hs => ?_, rfl, fun id hid => ?_,
    rfl, rfl, rfl⟩
  · simp only [ServiceProvider.CreateScope, if_true]
    cases hd : w.services key with
    | none => simp
    | some d =>
      by_cases hs : d.serv_type = ServiceTypeEnum.Scoped
      · simp [hs]
      · simp [hs]
  · simp only [ServiceProvider.CreateScope, if_true, hd, hs]
  · simp only [ServiceProvider.CreateScope, if_true, hd, if_neg hs]
  · have hid' : id ≠ w.nextScope := hid
    simp only [ServiceProvider.CreateScope, if_neg hid']

/-- C18 at the registry of `Test_References` (a Singleton, a Scoped and a
Transient identity): the new scope holds a copy of `MyService2` only. -/
theorem createScope_copies_scoped_witness :
    ((ServiceProvider.CreateScope referencesWorld).2.scopes 0 "MyService2").map
        (fun d => (d.inst_type, d.serv_type, d.inst)) =
        some (tMyService2, ServiceTypeEnum.Scoped, .nil) ∧
      ((ServiceProvider.CreateScope referencesWorld).2.scopes 0 "MyService").isSome = false ∧
      ((ServiceProvider.CreateScope referencesWorld).2.scopes 0 "MyService3").isSome = false :=
  ⟨congrArg (Option.map fun d => (d.inst_type, d.serv_type, d.inst))
      ((createScope_copies_scoped referencesWorld).2.1 "MyService2" _ rfl rfl),
    congrArg Option.isSome
      ((createScope_copies_scoped referencesWorld).2.2.1 "MyService" _ rfl (by decide)),
    congrArg Option.isSome
      ((createScope_copies_scoped referencesWorld).2.2.1 "MyService3" _ rfl (by decide))⟩

/-! ## The resolver a factory is given -/

/-- C19, as stated, fails.  `MyService` is Scoped and constructed in the scope,
and `MyService2` is a Singleton whose factory resolves `MyService` through the
resolver it is given.  With the factory
`a, _ := s.GetServiceOr("MyService"); return &MyService2{Obj: a}, nil` the call
`scope.GetServiceOr("MyService2")` returns a new `MyService2` holding nil and
no error, and `MyService2` is memoized.  With the factory of `Test_Injection`,
`return &MyService2{Obj: GetService[*MyService](s)}, nil`, the call does not
return an error: it panics. -/
theorem singleton_factory_may_succeed :
    ServiceScope.GetServiceOr 5 0 "MyService2" (captiveWorldWith ignoringMyService2) =
        some (.ok (.mk (.ptr tMyService2) 2) none,
          (({ captiveWorldWith ignoringMyService2 with
              heap := [(tMyService, [.mk tInt 1]), (tMyService2, [.nil])] } :
            World).invoked "MyService2" .root).setProviderInst "MyService2"
              (.mk (.ptr tMyService2) 2)) ∧
      (((({ captiveWorldWith ignoringMyService2 with
              heap := [(tMyService, [.mk tInt 1]), (tMyService2, [.nil])] } :
            World).invoked "MyService2" .root).setProviderInst "MyService2"
              (.mk (.ptr tMyService2) 2)).services "MyService2").map (fun d => d.inst) =
        some (.mk (.ptr tMyService2) 2) ∧
      ServiceScope.GetServiceOr 5 0 "MyService2"
          (captiveWorldWith (newHolding implementsNothing tMyService tMyService2)) =
        some (.panic "cannot get scoped service 'MyService' from root",
          (captiveWorldWith (newHolding implementsNothing tMyService tMyService2)).invoked
            "MyService2" .root) :=
  ⟨rfl, rfl, rfl⟩

/-- C19, amended.  The scope `id` has no descriptor of its own for the
Singleton `S`, not yet constructed, and `Y` is Scoped in the provider.  A call
`s.GetServiceOr(Y)` made with the provider, in the state `w` or in any state
with the same registrations, hands a nil instance and the error "cannot get
scoped service 'Y' from root" to what follows it and leaves the state as it is,
whatever a scope holds for `Y`.  When the factory of `S` starts with
`s.GetServiceOr(Y)`, `ServiceScope.GetServiceOr(S)` calls it with the provider:
if the factory returns the error it receives, the call returns a nil instance
and that error; if it panics with the text of the error, as `GetService` does,
the call panics with that text; in both cases `S` keeps its descriptor without
an instance and the record gains the call of the factory of `S` with the
provider as resolver. -/
theorem singleton_factory_gets_provider (fuel id : Nat) (S Y : String) (w : World)
    (dS dY : ServiceDescriptor) (k : Value → Option GoError → Prog)
    (hown : w.scopes id S = none)
    (hdS : w.services S = some dS) (hsS : dS.serv_type = ServiceTypeEnum.Singleton)
    (hnS : dS.inst = .nil) (hfS : dS.factory = some (.GetServiceOr Y k))
    (hdY : w.services Y = some dY) (hsY : dY.serv_type = ServiceTypeEnum.Scoped) :
    (∀ w' n k', w.Frame w' →
        Prog.run (n + 2) .root (.GetServiceOr Y k') w' =
          Prog.run (n + 1) .root
            (k' .nil (some ⟨"cannot get scoped service '" ++ Y ++ "' from root"⟩)) w') ∧
      ((∀ v e, ∃ v', k v (some e) = .ret v' (some e)) →
        ServiceScope.GetServiceOr (fuel + 4) id S w =
            some (.ok .nil (some ⟨"cannot get scoped service '" ++ Y ++ "' from root"⟩),
              w.invoked S .root) ∧
          (w.invoked S .root).services S = some dS ∧
          (w.invoked S .root).log = w.log ++ [(S, .root)]) ∧
      ((∀ v e, k v (some e) = .panic e.text) →
        ServiceScope.GetServiceOr (fuel + 4) id S w =
            some (.panic ("cannot get scoped service '" ++ Y ++ "' from root"),
              w.invoked S .root) ∧
          (w.invoked S .root).services S = some dS ∧
          (w.invoked S .root).log = w.log ++ [(S, .root)]) := by
  have h0 : dY.serv_type ≠ ServiceTypeEnum.Singleton := by rw [hsY]; decide
  have hbody : ∀ w' n k', w.Frame w' →
      Prog.run (n + 2) .root (.GetServiceOr Y k') w' =
        Prog.run (n + 1) .root
          (k' .nil (some ⟨"cannot get scoped service '" ++ Y ++ "' from root"⟩)) w' := by
    intro w' n k' hfr
    obtain ⟨d1, hd1, -, hs1, -⟩ := hfr.services_some hdY
    have hs1' : d1.serv_type = ServiceTypeEnum.Scoped := hs1.trans hsY
    have h1 : d1.serv_type ≠ ServiceTypeEnum.Singleton := by rw [hs1']; decide
    simp only [Prog.run, ServiceProvider.GetServiceOr, hd1, if_neg h1, if_pos hs1']
  refine ⟨hbody, fun hk => ⟨?_, hdS, rfl⟩, fun hk => ⟨?_, hdS, rfl⟩⟩
  · obtain ⟨v', hv'⟩ := hk .nil ⟨"cannot get scoped service '" ++ Y ++ "' from root"⟩
    have hrun : Prog.run (fuel + 2) .root (.GetServiceOr Y k) w =
        some (.ok v' (some ⟨"cannot get scoped service '" ++ Y ++ "' from root"⟩), w) := by
      rw [hbody w fuel k (World.Frame.refl w), hv']
      simp only [Prog.run]
    rw [scope_delegates hown hdS hsS (fuel + 3)]
    simp only [ServiceProvider.GetServiceOr, hdS, hsS, hnS, hfS, hrun, called, Option.map_some',
      if_true]
  · have hrun : Prog.run (fuel + 2) .root (.GetServiceOr Y k) w =
        some (.panic ("cannot get scoped service '" ++ Y ++ "' from root"), w) := by
      rw [hbody w fuel k (World.Frame.refl w),
        hk .nil ⟨"cannot get scoped service '" ++ Y ++ "' from root"⟩]
      simp only [Prog.run]
    rw [scope_delegates hown hdS hsS (fuel + 3)]
    simp only [ServiceProvider.GetServiceOr, hdS, hsS, hnS, hfS, hrun, called, Option.map_some',
      if_true]

/-- C19, amended, at a registry with the Scoped `MyService`, constructed in the
scope, and a Singleton `MyService2`: with a factory that returns the error it
receives the call through the scope returns the error, with the factory of
`Test_Injection` it panics, and `MyService2` stays unconstructed. -/
theorem singleton_factory_gets_provider_witness :
    ServiceScope.GetServiceOr 4 0 "MyService2" captiveWorld =
        some (.ok .nil (some ⟨"cannot get scoped service 'MyService' from root"⟩),
          captiveWorld.invoked "MyService2" .root) ∧
      ((captiveWorld.invoked "MyService2" .root).services "MyService2").map
        (fun d => d.inst) = some .nil ∧
      (captiveWorld.scopes 0 "MyService").map (fun d => d.inst) =
        some (.mk (.ptr tMyService) 1) ∧
      ServiceScope.GetServiceOr 4 0 "MyService2"
          (captiveWorldWith (newHolding implementsNothing tMyService tMyService2)) =
        some (.panic "cannot get scoped service 'MyService' from root",
          (captiveWorldWith (newHolding implementsNothing tMyService tMyService2)).invoked
            "MyService2" .root) :=
  ⟨((singleton_factory_gets_provider 0 0 "MyService2" "MyService" captiveWorld _ _ _
      rfl rfl rfl rfl rfl rfl rfl).2.1 (fun _ _ => ⟨_, rfl⟩)).1,
    congrArg (Option.map fun d => d.inst)
      ((singleton_factory_gets_provider 0 0 "MyService2" "MyService" captiveWorld _ _ _
        rfl rfl rfl rfl rfl rfl rfl).2.1 (fun _ _ => ⟨_, rfl⟩)).2.1,
    rfl,
    ((singleton_factory_gets_provider 0 0 "MyService2" "MyService"
      (captiveWorldWith (newHolding implementsNothing tMyService tMyService2)) _ _ _
      rfl rfl rfl rfl rfl rfl rfl).2.2 (fun _ _ => rfl)).1⟩

/-- C20. A Transient resolved through a scope constructs with the scope.  The
scope `id` finds `Y` Scoped and not yet constructed, and `T` Transient with the
factory `return &B{Obj: GetService[*Y](s)}, nil`; the factory of `Y`, called
with the scope in the state `w`, returns a pointer `y` to a `Y`.  Then two
`ServiceScope.GetServiceOr(T)` calls return two different pointers `b1` and
`b2`, each to a `B` whose field is `y`, and `ServiceScope.GetServiceOr(Y)` on
that scope returns `y`, whether `Y` is resolved after the two or before them.
The record gains one call of the factory of `Y` and two of the factory of `T`,
all with the scope as resolver. -/
theorem transient_through_scope (implements : GoType → GoType → Bool) (fuel id addr : Nat)
    (Y B : GoType) (XT : String) (w w1 : World) (dY dT : ServiceDescriptor)
    (ownY ownT : Bool) (fY : Prog)
    (hdY : ServiceScope.find w id Y.Name = some (dY, ownY))
    (hsY : dY.serv_type = ServiceTypeEnum.Scoped) (hnY : dY.inst = .nil)
    (hfY : dY.factory = some fY)
    (hdT : ServiceScope.find w id XT = some (dT, ownT))
    (hsT : dT.serv_type = ServiceTypeEnum.Transient)
    (hfT : dT.factory = some (newHolding implements Y B))
    (hrun : Prog.run fuel (.scope id) fY w = some (.ok (.mk (.ptr Y) addr) none, w1)) :
    ∃ b1 b2 wf,
      resolveAll (fuel + 5) (.scope id) [XT, XT, Y.Name] w =
        some ([.ok b1 none, .ok b2 none, .ok (.mk (.ptr Y) addr) none], wf) ∧
      resolveAll (fuel + 5) (.scope id) [Y.Name, XT, XT] w =
        some ([.ok (.mk (.ptr Y) addr) none, .ok b1 none, .ok b2 none], wf) ∧
      b1 ≠ b2 ∧
      wf.deref b1 = some (B, [.mk (.ptr Y) addr]) ∧
      wf.deref b2 = some (B, [.mk (.ptr Y) addr]) ∧
      wf.log = w1.log ++ [(Y.Name, .scope id), (XT, .scope id), (XT, .scope id)] := by
  -- the state `wY` after the construction of `Y`
  obtain ⟨wY, hwY⟩ : ∃ wY, wY = (w1.invoked Y.Name (.scope id)).setFoundInst id ownY Y.Name
      (.mk (.ptr Y) addr) := ⟨_, rfl⟩
  have hY1 : ServiceScope.GetServiceOr (fuel + 1) id Y.Name w =
      some (.ok (.mk (.ptr Y) addr) none, wY) :=
    hwY ▸ scope_construct hdY hsY hnY hfY hrun rfl
  have hfr1 : w.Frame (w1.invoked Y.Name (.scope id)) :=
    (Prog.run_frame hrun).trans (World.frame_invoked _ _ _)
  have hfrY : w.Frame wY := hwY ▸ hfr1.trans (World.frame_setFoundInst _ _ _ _ _)
  obtain ⟨dY1, hdY1, -, hsY1, -⟩ := hfr1.find_some hdY
  have hdYY : ServiceScope.find wY id Y.Name =
      some ({ dY1 with inst := .mk (.ptr Y) addr }, ownY) := by
    rw [hwY]; exact ServiceScope.find_setFoundInst hdY1 _
  have hheapY : wY.heap = w1.heap := by rw [hwY]; cases ownY <;> rfl
  have hlogY : wY.log = w1.log ++ [(Y.Name, .scope id)] := by rw [hwY]; cases ownY <;> rfl
  obtain ⟨dT1, hdT1, -, hsT1, hfT1⟩ := hfrY.find_some hdT
  -- the states after the first and the second resolution of `T`
  obtain ⟨wT1, hwT1⟩ : ∃ wT1, wT1 = ({ wY with heap := wY.heap ++ [(B, [.mk (.ptr Y) addr])] } :
      World).invoked XT (.scope id) := ⟨_, rfl⟩
  obtain ⟨wT2, hwT2⟩ : ∃ wT2, wT2 = ({ wT1 with heap := wT1.heap ++ [(B, [.mk (.ptr Y) addr])] } :
      World).invoked XT (.scope id) := ⟨_, rfl⟩
  have hfind1 : ∀ nm, ServiceScope.find wT1 id nm = ServiceScope.find wY id nm := by
    intro nm; rw [hwT1]; rfl
  have hfind2 : ∀ nm, ServiceScope.find wT2 id nm = ServiceScope.find wY id nm := by
    intro nm; rw [hwT2, ← hfind1]; rfl
  have hmemo : ∀ wx : World, ServiceScope.find wx id Y.Name =
      some ({ dY1 with inst := .mk (.ptr Y) addr }, ownY) → ∀ k,
      ServiceScope.GetServiceOr (k + 1) id Y.Name wx = some (.ok (.mk (.ptr Y) addr) none, wx) :=
    fun wx hx k => @scope_memoized k _ _ _ _ _ hx (hsY1.trans hsY) (by simp)
  have hT1w : ServiceScope.GetServiceOr (fuel + 4) id XT w =
      some (.ok (.mk (.ptr B) (wY.heap.length + 1)) none, wT1) :=
    hwT1 ▸ scope_call_holding implements B hY1 hdT hsT hfT
  have hT1Y : ServiceScope.GetServiceOr (0 + 4) id XT wY =
      some (.ok (.mk (.ptr B) (wY.heap.length + 1)) none, wT1) :=
    hwT1 ▸ scope_call_holding implements B (hmemo wY hdYY 0) hdT1 (hsT1.trans hsT)
      (hfT1.trans hfT)
  have hT2 : ServiceScope.GetServiceOr (0 + 4) id XT wT1 =
      some (.ok (.mk (.ptr B) (wT1.heap.length + 1)) none, wT2) :=
    hwT2 ▸ scope_call_holding implements B (hmemo wT1 ((hfind1 _).trans hdYY) 0)
      ((hfind1 _).trans hdT1) (hsT1.trans hsT) (hfT1.trans hfT)
  have hY2 := hmemo wT2 ((hfind2 _).trans hdYY) (fuel + 4)
  -- everything with the same fuel
  have QY := scope_mono (show fuel + 1 ≤ fuel + 5 by omega) hY1
  have QT1w := scope_mono (show fuel + 4 ≤ fuel + 5 by omega) hT1w
  have QT1Y := scope_mono (show 0 + 4 ≤ fuel + 5 by omega) hT1Y
  have QT2 := scope_mono (show 0 + 4 ≤ fuel + 5 by omega) hT2
  have hheap1 : wT1.heap = w1.heap ++ [(B, [.mk (.ptr Y) addr])] := by
    rw [hwT1, ← hheapY]; rfl
  have hheap2 : wT2.heap = (w1.heap ++ [(B, [.mk (.ptr Y) addr])]) ++
      [(B, [.mk (.ptr Y) addr])] := by
    rw [hwT2, ← hheap1]; rfl
  have hlog2 : wT2.log = w1.log ++ [(Y.Name, .scope id), (XT, .scope id), (XT, .scope id)] := by
    have h1 : wT1.log = wY.log ++ [(XT, .scope id)] := by rw [hwT1]; rfl
    have h2 : wT2.log = wT1.log ++ [(XT, .scope id)] := by rw [hwT2]; rfl
    rw [h2, h1, hlogY]; simp
  refine ⟨.mk (.ptr B) (wY.heap.length + 1), .mk (.ptr B) (wT1.heap.length + 1), wT2,
    ?_, ?_, ?_, ?_, ?_, hlog2⟩
  · simp only [resolveAll, IServiceProvider.GetServiceOr, QT1w, QT2, hY2, Option.map_some']
  · simp only [resolveAll, IServiceProvider.GetServiceOr, QY, QT1Y, QT2, Option.map_some']
  · rw [hheap1, hheapY]
    simp
  · rw [hheapY]
    simp only [World.deref, hheap2]
    exact heap_at_first _ _ _
  · rw [hheap1]
    simp only [World.deref, hheap2, List.length_append, List.length_singleton]
    exact heap_at_second _ _ _

/-- C20 at `transientScopedWorld`: two resolutions of `MyService3` through the
scope return the objects at addresses 2 and 3, both holding the `MyService` at
address 1, which is what the scope returns for `MyService`. -/
theorem transient_through_scope_witness :
    ∃ b1 b2 wf,
      resolveAll 8 (.scope 0) ["MyService3", "MyService3", "MyService"] transientScopedWorld =
        some ([.ok b1 none, .ok b2 none, .ok (.mk (.ptr tMyService) 1) none], wf) ∧
      resolveAll 8 (.scope 0) ["MyService", "MyService3", "MyService3"] transientScopedWorld =
        some ([.ok (.mk (.ptr tMyService) 1) none, .ok b1 none, .ok b2 none], wf) ∧
      b1 ≠ b2 ∧
      wf.deref b1 = some (tMyService3, [.mk (.ptr tMyService) 1]) ∧
      wf.deref b2 = some (tMyService3, [.mk (.ptr tMyService) 1]) ∧
      wf.log = [("MyService", .scope 0), ("MyService3", .scope 0), ("MyService3", .scope 0)] :=
  transient_through_scope implementsNothing 3 0 1 tMyService tMyService3 "MyService3"
    transientScopedWorld _ _ _ true false newMyService rfl rfl rfl rfl rfl rfl rfl rfl

end DiPlus
